import Mathlib

/-!
Verification of the arkai event-sourced pipeline orchestrator.

This file gives a shallow embedding, in Lean 4, of the parts of the arkai
source that the checked claims are about:

* `src/ingest/queue.rs` — the content-addressed voice queue (hashing,
  enqueue, state transitions derived from an append-only event log);
* `src/core/pipeline.rs` — retry policy delays;
* `src/core/event_store.rs` — the append-only event log and the
  idempotency check;
* `src/core/safety.rs` — safety limits and violations;
* `src/domain/{events,run,artifact}.rs` — the domain model and run-state
  reconstruction from events;
* `src/core/orchestrator.rs` — pipeline execution and resumption;
* `src/evidence/spans.rs` — quote location and anchor-text extraction.

Modelling conventions: Rust byte strings are `List Nat` (each entry a
byte value); Rust `String`/`&str` values that the claims treat as opaque
text are Lean `String`; `u32`/`u64`/`usize` are `Nat` (overflow does not
occur on the paths the claims exercise; saturating/checked points are
modelled explicitly); wall-clock instants are a `Nat` that the pure model
does not advance; `HashMap` is an association list whose `insert` conses
(shadowing gives the same lookup semantics); fallible Rust functions
return `Except`/`Option`.
-/

namespace Arkai

/-! ## SHA-256 (semantics of the `sha2` crate as used by the source)

`compute_file_hash` (src/ingest/queue.rs) and `hash_input`
(src/core/event_store.rs) hash with SHA-256 (FIPS 180-4); the algorithm is
embedded here over byte lists. -/

/-- Truncate to a 32-bit word. -/
def mask32 (x : Nat) : Nat := x % 2 ^ 32

/-- 32-bit right rotation. -/
def rotr (n x : Nat) : Nat := mask32 ((x >>> n) ||| (x <<< (32 - n)))

/-- 32-bit complement. -/
def compl32 (x : Nat) : Nat := x ^^^ 0xffffffff

/-- SHA-256 `Ch` function. -/
def sha2Ch (x y z : Nat) : Nat := (x &&& y) ^^^ (compl32 x &&& z)

/-- SHA-256 `Maj` function. -/
def sha2Maj (x y z : Nat) : Nat := (x &&& y) ^^^ (x &&& z) ^^^ (y &&& z)

/-- SHA-256 Σ₀. -/
def bigSigma0 (x : Nat) : Nat := rotr 2 x ^^^ rotr 13 x ^^^ rotr 22 x

/-- SHA-256 Σ₁. -/
def bigSigma1 (x : Nat) : Nat := rotr 6 x ^^^ rotr 11 x ^^^ rotr 25 x

/-- SHA-256 σ₀. -/
def smallSigma0 (x : Nat) : Nat := rotr 7 x ^^^ rotr 18 x ^^^ (x >>> 3)

/-- SHA-256 σ₁. -/
def smallSigma1 (x : Nat) : Nat := rotr 17 x ^^^ rotr 19 x ^^^ (x >>> 10)

/-- The 64 SHA-256 round constants (FIPS 180-4 section 4.2.2, written in
decimal). -/
def sha2K : List Nat :=
  [1116352408, 1899447441, 3049323471, 3921009573, 961987163,
   1508970993, 2453635748, 2870763221, 3624381080, 310598401,
   607225278, 1426881987, 1925078388, 2162078206, 2614888103,
   3248222580, 3835390401, 4022224774, 264347078, 604807628,
   770255983, 1249150122, 1555081692, 1996064986, 2554220882,
   2821834349, 2952996808, 3210313671, 3336571891, 3584528711,
   113926993, 338241895, 666307205, 773529912, 1294757372,
   1396182291, 1695183700, 1986661051, 2177026350, 2456956037,
   2730485921, 2820302411, 3259730800, 3345764771, 3516065817,
   3600352804, 4094571909, 275423344, 430227734, 506948616,
   659060556, 883997877, 958139571, 1322822218, 1537002063,
   1747873779, 1955562222, 2024104815, 2227730452, 2361852424,
   2428436474, 2756734187, 3204031479, 3329325298]

/-- The eight words of the SHA-256 working state. -/
structure Hash8 where
  a : Nat
  b : Nat
  c : Nat
  d : Nat
  e : Nat
  f : Nat
  g : Nat
  h : Nat
deriving DecidableEq, Repr

/-- SHA-256 initial hash value (FIPS 180-4 section 5.3.3, in decimal). -/
def sha2H0 : Hash8 :=
  ⟨1779033703, 3144134277, 1013904242, 2773480762,
   1359893119, 2600822924, 528734635, 1541459225⟩

/-- One SHA-256 compression round; `kw` is the pair of round constant and
message-schedule word. -/
def sha2Round (st : Hash8) (kw : Nat × Nat) : Hash8 :=
  let t1 := mask32 (st.h + bigSigma1 st.e + sha2Ch st.e st.f st.g + kw.1 + kw.2)
  let t2 := mask32 (bigSigma0 st.a + sha2Maj st.a st.b st.c)
  ⟨mask32 (t1 + t2), st.a, st.b, st.c, mask32 (st.d + t1), st.e, st.f, st.g⟩

/-- Extend the message schedule by one word. -/
def scheduleStep (w : List Nat) : List Nat :=
  let n := w.length
  let s0 := smallSigma0 (w.getD (n - 15) 0)
  let s1 := smallSigma1 (w.getD (n - 2) 0)
  w ++ [mask32 (w.getD (n - 16) 0 + s0 + w.getD (n - 7) 0 + s1)]

/-- Iterate `scheduleStep`. -/
def buildSchedule (w : List Nat) : Nat → List Nat
  | 0 => w
  | n + 1 => buildSchedule (scheduleStep w) n

/-- Split a list into chunks of `n` elements (fuel-driven helper). -/
def chunksAux (n : Nat) : Nat → List α → List (List α)
  | 0, _ => []
  | _, [] => []
  | fuel + 1, l => l.take n :: chunksAux n fuel (l.drop n)

/-- Split a list into chunks of `n` elements. -/
def chunks (n : Nat) (l : List α) : List (List α) := chunksAux n l.length l

/-- Big-endian 32-bit word from four bytes. -/
def word4 : List Nat → Nat
  | [b0, b1, b2, b3] => ((b0 * 256 + b1) * 256 + b2) * 256 + b3
  | _ => 0

/-- Big-endian bytes of a 32-bit word. -/
def wordBytes (w : Nat) : List Nat :=
  [w / 0x1000000 % 256, w / 0x10000 % 256, w / 0x100 % 256, w % 256]

/-- Componentwise 32-bit addition of hash states. -/
def addHash8 (x y : Hash8) : Hash8 :=
  ⟨mask32 (x.a + y.a), mask32 (x.b + y.b), mask32 (x.c + y.c), mask32 (x.d + y.d),
   mask32 (x.e + y.e), mask32 (x.f + y.f), mask32 (x.g + y.g), mask32 (x.h + y.h)⟩

/-- Compress one 64-byte block into the running hash state. -/
def compressBlock (hs : Hash8) (block : List Nat) : Hash8 :=
  let w0 := (chunks 4 block).map word4
  let w := buildSchedule w0 48
  let st := (sha2K.zip w).foldl sha2Round hs
  addHash8 hs st

/-- Big-endian 64-bit length field of the padding. -/
def lenBytes64 (bitLen : Nat) : List Nat :=
  [bitLen / 2 ^ 56 % 256, bitLen / 2 ^ 48 % 256, bitLen / 2 ^ 40 % 256,
   bitLen / 2 ^ 32 % 256, bitLen / 2 ^ 24 % 256, bitLen / 2 ^ 16 % 256,
   bitLen / 2 ^ 8 % 256, bitLen % 256]

/-- SHA-256 message padding. -/
def sha2Pad (msg : List Nat) : List Nat :=
  let zeros := (64 - (msg.length + 9) % 64) % 64
  msg ++ 0x80 :: List.replicate zeros 0 ++ lenBytes64 (msg.length * 8)

/-- SHA-256 digest (32 bytes) of a byte list. -/
def sha256 (msg : List Nat) : List Nat :=
  let hf := (chunks 64 (sha2Pad msg)).foldl compressBlock sha2H0
  wordBytes hf.a ++ wordBytes hf.b ++ wordBytes hf.c ++ wordBytes hf.d ++
    wordBytes hf.e ++ wordBytes hf.f ++ wordBytes hf.g ++ wordBytes hf.h

/-- Lowercase hexadecimal digit for a value below 16. -/
def hexDigitChar (n : Nat) : Char :=
  if n < 10 then Char.ofNat (48 + n) else Char.ofNat (87 + n)

/-- Two lowercase hex characters of one byte (semantics of `hex::encode`
and of Rust's `{:x}` formatting of a digest). -/
def byteHex (b : Nat) : List Char := [hexDigitChar (b / 16), hexDigitChar (b % 16)]

/-- Lowercase hex encoding of a byte list. -/
def hexEncode (bytes : List Nat) : List Char := (bytes.map byteHex).flatten

/-- The sixteen lowercase hexadecimal characters. -/
def lowerHexChars : List Char := "0123456789abcdef".data

/-! ## Queue item identifiers (src/ingest/queue.rs, `compute_file_hash`) -/

/-- `compute_file_hash` (src/ingest/queue.rs): read the file, SHA-256 the
content, format the digest as lowercase hex (`format!("{:x}", result)`) and
keep the first 12 characters (`[..12]`). The file read is modelled by
passing the file's bytes directly. -/
def compute_file_hash (content : List Nat) : List Char :=
  (hexEncode (sha256 content)).take 12

/-! ## Retry policy (src/core/pipeline.rs) -/

/-- `RetryPolicy` (src/core/pipeline.rs). `backoff_multiplier` is an `f64`
in the source; its value is modelled exactly as a rational. -/
structure RetryPolicy where
  max_attempts : Nat
  initial_delay_ms : Nat
  max_delay_ms : Nat
  backoff_multiplier : ℚ
deriving DecidableEq, Repr

/-- Rust `as u64` cast applied to a non-NaN `f64`: truncate toward zero and
saturate into the `u64` range. -/
def f64AsU64 (q : ℚ) : Nat := min (Int.toNat ⌊q⌋) (2 ^ 64 - 1)

/-- `RetryPolicy::delay_for_attempt` (src/core/pipeline.rs lines 235-245):
attempt 1 (and 0) returns `initial_delay_ms` directly; later attempts
compute `initial * multiplier^(attempt-1)` in floating point, cap at
`max_delay_ms`, and cast to `u64` milliseconds. The floating-point
arithmetic is modelled exactly over `ℚ`. -/
def RetryPolicy.delay_for_attempt (p : RetryPolicy) (attempt : Nat) : Nat :=
  if attempt ≤ 1 then p.initial_delay_ms
  else
    let delay : ℚ := (p.initial_delay_ms : ℚ) * p.backoff_multiplier ^ (attempt - 1)
    f64AsU64 (min delay (p.max_delay_ms : ℚ))

/-- `RetryPolicy::should_retry` (src/core/pipeline.rs lines 248-250). -/
def RetryPolicy.should_retry (p : RetryPolicy) (attempt : Nat) : Bool :=
  attempt < p.max_attempts

/-- The delay formula exactly as the spec words it: for attempt `n` the
delay is `min(initial × multiplier^(n−1), max_delay)` milliseconds
(cast like the source casts). Kept separate from
`RetryPolicy.delay_for_attempt` so the two can be compared. -/
def specDelayForAttempt (p : RetryPolicy) (attempt : Nat) : Nat :=
  f64AsU64 (min ((p.initial_delay_ms : ℚ) * p.backoff_multiplier ^ (attempt - 1))
    (p.max_delay_ms : ℚ))

/-! ## Voice queue (src/ingest/queue.rs) -/

/-- Modelled from the spec: `VoiceQueueStatus` lives in the domain module,
whose defining file is not among the provided sources; spec §3 gives the
queue item state set `{Pending, Processing, Done, Failed}`, which matches
the exhaustive matches over the enum in src/ingest/queue.rs. -/
inductive VoiceQueueStatus
  | Pending
  | Processing
  | Done
  | Failed
deriving DecidableEq, Repr

/-- `VoiceQueueError` (src/ingest/queue.rs lines 20-39). The `Io` and
`Serialization` payloads are opaque to the claims and dropped. -/
inductive VoiceQueueError
  | NotFound (id : String)
  | AlreadyExists (id : String)
  | IoError
  | SerializationError
  | InvalidTransition (from_ : VoiceQueueStatus) (to_ : VoiceQueueStatus)
deriving DecidableEq, Repr

/-- `QueueEventType` (src/ingest/queue.rs lines 61-76). -/
inductive QueueEventType
  | Enqueued
  | ProcessingStarted
  | Completed
  | Failed
  | ResetForRetry
deriving DecidableEq, Repr

/-- `QueueItemData` (src/ingest/queue.rs lines 80-92). Timestamps are
opaque `Nat`s. -/
structure QueueItemData where
  file_path : String
  file_name : String
  file_size : Nat
  detected_at : Nat
deriving DecidableEq, Repr

/-- The `data` payload of a queue event (`Option<serde_json::Value>` in the
source): an `Enqueued` event carries `QueueItemData`, a `Failed` event an
error string. A payload that would not parse back as `QueueItemData` is any
other shape; `errorData` doubles as that case for `Enqueued`. -/
inductive QueueEventData
  | itemData (d : QueueItemData)
  | errorData (error : String)
deriving DecidableEq, Repr

/-- `QueueEvent` (src/ingest/queue.rs lines 42-56). -/
structure QueueEvent where
  timestamp : Nat
  item_id : String
  event_type : QueueEventType
  data : Option QueueEventData
deriving DecidableEq, Repr

/-- `QueueItem` (src/ingest/queue.rs lines 95-117). -/
structure QueueItem where
  id : String
  status : VoiceQueueStatus
  data : QueueItemData
  started_at : Option Nat
  completed_at : Option Nat
  error : Option String
  retry_count : Nat
deriving DecidableEq, Repr

/-- Lookup of the first (visible) binding of a key, the model of
`HashMap::get` on the association-list map. -/
def alistLookup {α : Type} (k : String) : List (String × α) → Option α
  | [] => none
  | (k', v) :: rest => if k' = k then some v else alistLookup k rest

/-- In-place update of the first (visible) binding of a key, the model of
`HashMap::get_mut` on the association-list map: absent keys are a no-op. -/
def alistUpdate {α : Type} (k : String) (f : α → α) :
    List (String × α) → List (String × α)
  | [] => []
  | (k', v) :: rest =>
    if k' = k then (k', f v) :: rest else (k', v) :: alistUpdate k f rest

/-- `VoiceQueue::apply_event` (src/ingest/queue.rs lines 189-242).
`HashMap::insert` is modelled by consing (shadowing), which has the same
lookup semantics. -/
def applyQueueEvent (items : List (String × QueueItem)) (event : QueueEvent) :
    List (String × QueueItem) :=
  match event.event_type with
  | .Enqueued =>
    match event.data with
    | some (.itemData d) =>
      (event.item_id,
        { id := event.item_id, status := .Pending, data := d,
          started_at := none, completed_at := none, error := none,
          retry_count := 0 }) :: items
    | _ => items
  | .ProcessingStarted =>
    alistUpdate event.item_id
      (fun it => { it with status := .Processing, started_at := some event.timestamp })
      items
  | .Completed =>
    alistUpdate event.item_id
      (fun it => { it with status := .Done, completed_at := some event.timestamp })
      items
  | .Failed =>
    alistUpdate event.item_id
      (fun it =>
        { it with
          status := .Failed, completed_at := some event.timestamp,
          error := match event.data with
            | some (.errorData e) => some e
            | _ => it.error })
      items
  | .ResetForRetry =>
    alistUpdate event.item_id
      (fun it =>
        { it with
          status := .Pending, retry_count := it.retry_count + 1,
          error := none, started_at := none, completed_at := none })
      items

/-- `VoiceQueue::replay` (src/ingest/queue.rs lines 165-186): fold the
event log into the item map (the JSONL file is modelled at event
granularity; blank-line skipping and parse errors concern the string
layer). -/
def queueReplay (log : List QueueEvent) : List (String × QueueItem) :=
  log.foldl applyQueueEvent []

/-- `EnqueueResult` (src/ingest/queue.rs lines 400-412). -/
inductive EnqueueResult
  | Queued (id : String)
  | AlreadyQueued (id : String)
  | AlreadyProcessed (id : String)
  | ResetForRetry (id : String)
deriving DecidableEq, Repr

/-- `EnqueueResult::is_new` (src/ingest/queue.rs lines 426-428). -/
def EnqueueResult.is_new : EnqueueResult → Bool
  | .Queued _ => true
  | _ => false

/-- `Path::file_name().unwrap_or_default().to_string_lossy()` as used by
`enqueue`, modelled as the last `/`-separated component (adequate for the
claims, which never inspect the name). -/
def fileNameOf (p : String) : String := (p.splitOn "/").getLastD ""

/-- The queue item identifier as a string. -/
def computeFileHashStr (content : List Nat) : String :=
  String.mk (compute_file_hash content)

/-- `VoiceQueue::enqueue` (src/ingest/queue.rs lines 245-300). The file at
`file_path` is modelled by its bytes `content`; `now` stands for
`Utc::now()`. Returns the new log and the result (the source's only error
paths are I/O, which the pure model cannot hit). -/
def VoiceQueue.enqueue (log : List QueueEvent) (file_path : String)
    (content : List Nat) (file_size : Nat) (detected_at : Nat) (now : Nat) :
    List QueueEvent × EnqueueResult :=
  let hash := computeFileHashStr content
  let items := queueReplay log
  match alistLookup hash items with
  | some existing =>
    match existing.status with
    | .Done => (log, .AlreadyProcessed hash)
    | .Failed =>
      let event : QueueEvent :=
        { timestamp := now, item_id := hash, event_type := .ResetForRetry,
          data := none }
      (log ++ [event], .ResetForRetry hash)
    | _ => (log, .AlreadyQueued hash)
  | none =>
    let item_data : QueueItemData :=
      { file_path := file_path, file_name := fileNameOf file_path,
        file_size := file_size, detected_at := detected_at }
    let event : QueueEvent :=
      { timestamp := now, item_id := hash, event_type := .Enqueued,
        data := some (.itemData item_data) }
    (log ++ [event], .Queued hash)

/-- `VoiceQueue::mark_processing` (src/ingest/queue.rs lines 317-337).
Returns the new log and `none` on success, `some err` on failure. -/
def VoiceQueue.mark_processing (log : List QueueEvent) (id : String)
    (now : Nat) : List QueueEvent × Option VoiceQueueError :=
  let items := queueReplay log
  match alistLookup id items with
  | none => (log, some (.NotFound id))
  | some item =>
    if item.status ≠ VoiceQueueStatus.Pending then
      (log, some (.InvalidTransition item.status .Processing))
    else
      (log ++ [{ timestamp := now, item_id := id,
                 event_type := .ProcessingStarted, data := none }], none)

/-! ## UTF-8 byte-level model (Rust `str` semantics) -/

/-- UTF-8 encoding of one Unicode scalar value — the bytes Rust's `str`
stores for one `char`. -/
def encodeChar (c : Nat) : List Nat :=
  if c < 0x80 then [c]
  else if c < 0x800 then [0xC0 + c / 0x40, 0x80 + c % 0x40]
  else if c < 0x10000 then
    [0xE0 + c / 0x1000, 0x80 + c / 0x40 % 0x40, 0x80 + c % 0x40]
  else
    [0xF0 + c / 0x40000, 0x80 + c / 0x1000 % 0x40, 0x80 + c / 0x40 % 0x40,
     0x80 + c % 0x40]

/-- UTF-8 encoding of a sequence of scalar values. -/
def utf8Encode (cs : List Nat) : List Nat := (cs.map encodeChar).flatten

/-- A byte list is valid UTF-8 when it encodes some scalar sequence. -/
def ValidUtf8 (t : List Nat) : Prop :=
  ∃ cs : List Nat, (∀ c ∈ cs, c < 0x110000) ∧ t = utf8Encode cs

/-- The UTF-8 bytes of a Lean string (Rust `str::as_bytes`). -/
def strBytes (s : String) : List Nat := utf8Encode (s.data.map Char.toNat)

/-- Rust `str::len()`: the UTF-8 byte length. -/
def strLen (s : String) : Nat := (strBytes s).length

/-- `str::is_char_boundary` (Rust core): true at 0; past the end only at
exactly the length; otherwise true iff the byte at `i` is not a UTF-8
continuation byte (`(b as i8) >= -0x40`). -/
def isCharBoundary (t : List Nat) (i : Nat) : Bool :=
  if i = 0 then true
  else
    match t.get? i with
    | none => i == t.length
    | some b => decide (b < 0x80) || decide (0xC0 ≤ b)

/-! ## Span resolver (src/evidence/spans.rs) -/

/-- `MatchResult` (src/evidence/spans.rs lines 16-22). -/
structure MatchResult where
  matches_ : List (Nat × Nat)
  normalized_hint : Bool
deriving DecidableEq, Repr

/-- `MatchStatus` (src/evidence/spans.rs lines 46-54). -/
inductive MatchStatus
  | Resolved
  | Ambiguous
  | Unresolved
deriving DecidableEq, Repr

/-- `MatchResult::status` (src/evidence/spans.rs lines 26-32). -/
def MatchResult.status (r : MatchResult) : MatchStatus :=
  match r.matches_.length with
  | 0 => .Unresolved
  | 1 => .Resolved
  | _ => .Ambiguous

/-- `MatchResult::selected_match` (src/evidence/spans.rs lines 35-37). -/
def MatchResult.selected_match (r : MatchResult) : Option (Nat × Nat) :=
  r.matches_.head?

/-- `MatchResult::match_info` (src/evidence/spans.rs lines 40-42):
`(match_count, match_rank)`, rank always 1. -/
def MatchResult.match_info (r : MatchResult) : Nat × Nat :=
  (r.matches_.length, 1)

/-- `find_exact_matches` (src/evidence/spans.rs lines 77-93): empty or
over-long quotes yield no matches, otherwise the sliding-window loop over
`0..=(transcript.len() - quote_len)` collects every `(i, i + quote_len)`
whose slice equals the quote (rendered as a filter over `List.range`). -/
def find_exact_matches (transcript quote : List Nat) : List (Nat × Nat) :=
  if quote.isEmpty || transcript.length < quote.length then []
  else
    ((List.range (transcript.length - quote.length + 1)).filter fun i =>
        (transcript.drop i).take quote.length == quote).map
      fun i => (i, i + quote.length)

/-- Whitespace bytes for `split_whitespace`, modelled for ASCII whitespace
(no claim inspects the normalized hint). -/
def isWsByte (b : Nat) : Bool :=
  b == 0x20 || b == 0x09 || b == 0x0A || b == 0x0B || b == 0x0C || b == 0x0D

/-- Word splitter underlying `normalize_whitespace` (accumulator-driven). -/
def splitWsAux (cur : List Nat) : List Nat → List (List Nat)
  | [] => if cur.isEmpty then [] else [cur.reverse]
  | b :: rest =>
    if isWsByte b then
      if cur.isEmpty then splitWsAux [] rest
      else cur.reverse :: splitWsAux [] rest
    else splitWsAux (b :: cur) rest

/-- `split_whitespace` of a byte string. -/
def splitWs (l : List Nat) : List (List Nat) := splitWsAux [] l

/-- `join(" ")` of the split words. -/
def joinSpace : List (List Nat) → List Nat
  | [] => []
  | [w] => w
  | w :: ws => w ++ 0x20 :: joinSpace ws

/-- `normalize_whitespace` (src/evidence/spans.rs lines 109-111). -/
def normalize_whitespace (text : List Nat) : List Nat := joinSpace (splitWs text)

/-- Rust `str::contains` for a byte-substring. -/
def containsSublist (t q : List Nat) : Bool :=
  q.isEmpty || ((List.range (t.length + 1)).any fun i =>
    (t.drop i).take q.length == q)

/-- `has_normalized_match` (src/evidence/spans.rs lines 101-106). -/
def has_normalized_match (transcript quote : List Nat) : Bool :=
  containsSublist (normalize_whitespace transcript) (normalize_whitespace quote)

/-- `find_quote` (src/evidence/spans.rs lines 123-136). -/
def find_quote (transcript quote : List Nat) : MatchResult :=
  let ms := find_exact_matches transcript quote
  let normalized_hint :=
    if ms.isEmpty then has_normalized_match transcript quote else false
  { matches_ := ms, normalized_hint := normalized_hint }

/-- `compute_hash` (src/evidence/spans.rs lines 145-150):
`"sha256:" ++ hex(SHA-256(bytes))`. -/
def compute_hash (bytes : List Nat) : List Char :=
  "sha256:".data ++ hexEncode (sha256 bytes)

/-- `compute_slice_hash` (src/evidence/spans.rs lines 161-164). -/
def compute_slice_hash (transcript : List Nat) (start end_ : Nat) : List Char :=
  compute_hash ((transcript.take end_).drop start)

/-- Spec-side occurrence predicate: the quote `q` occurs verbatim in `t`
at byte offset `i` (the slice `t[i .. i + |q|)` exists and equals `q`). -/
def OccursAt (t q : List Nat) (i : Nat) : Prop :=
  i + q.length ≤ t.length ∧ (t.drop i).take q.length = q

instance occursAtDecidable (t q : List Nat) (i : Nat) :
    Decidable (OccursAt t q i) :=
  inferInstanceAs (Decidable (_ ∧ _))

/-- Spec-side count of the occurrences of `q` in `t`. -/
def occCount (t q : List Nat) : Nat :=
  ((List.range (t.length + 1)).filter fun i => decide (OccursAt t q i)).length

/-- The backward boundary snap of `extract_anchor_text`
(`while anchor_start > 0 && !is_char_boundary { anchor_start -= 1 }`). -/
def snapBack (t : List Nat) : Nat → Nat
  | 0 => 0
  | i + 1 => if isCharBoundary t (i + 1) then i + 1 else snapBack t i

/-- The forward boundary snap of `extract_anchor_text`, fuel-driven
(`while anchor_end < bytes.len() && !is_char_boundary { anchor_end += 1 }`). -/
def snapForwardAux (t : List Nat) : Nat → Nat → Nat
  | 0, i => i
  | fuel + 1, i =>
    if i < t.length && !isCharBoundary t i then snapForwardAux t fuel (i + 1)
    else i

/-- Forward snap entry point; the fuel `t.length - i` covers the loop. -/
def snapForward (t : List Nat) (i : Nat) : Nat :=
  snapForwardAux t (t.length - i) i

/-- `extract_anchor_text` (src/evidence/spans.rs lines 178-208). Returns
`none` exactly where Rust would panic: the debug-build overflow of
`end - start`, or string slicing outside boundaries. `saturating_sub` is
`Nat` subtraction; the `...` ellipses are the bytes `[0x2E, 0x2E, 0x2E]`. -/
def extract_anchor_text (transcript : List Nat) (start end_ window : Nat) :
    Option (List Nat) :=
  if end_ < start then none
  else
    let span_len := end_ - start
    let remaining := window - span_len
    let each_side := remaining / 2
    let anchor_start := snapBack transcript (start - each_side)
    let anchor_end := snapForward transcript (min (end_ + each_side) transcript.length)
    if isCharBoundary transcript anchor_start &&
        isCharBoundary transcript anchor_end &&
        anchor_start ≤ anchor_end && anchor_end ≤ transcript.length then
      let anchor := (transcript.take anchor_end).drop anchor_start
      let dots : List Nat := [0x2E, 0x2E, 0x2E]
      some ((if 0 < anchor_start then dots else []) ++ anchor ++
        (if anchor_end < transcript.length then dots else []))
    else none

/-! ## Safety limits (src/core/safety.rs) -/

/-- `SafetyViolation` (src/core/safety.rs lines 202-227). -/
inductive SafetyViolation
  | MaxSteps (actual limit : Nat)
  | MaxInputBytes (actual limit : Nat)
  | MaxOutputBytes (actual limit : Nat)
  | StepTimeout (elapsed_seconds limit_seconds : Nat)
  | RunTimeout (elapsed_seconds limit_seconds : Nat)
  | DenylistMatch (path : String)
deriving DecidableEq, Repr

/-- The `Display` strings of `SafetyViolation` (the `#[error(...)]`
attributes). -/
def SafetyViolation.toMessage : SafetyViolation → String
  | .MaxSteps a l => s!"Maximum steps exceeded: {a} >= {l}"
  | .MaxInputBytes a l => s!"Maximum input bytes exceeded: {a} > {l}"
  | .MaxOutputBytes a l => s!"Maximum output bytes exceeded: {a} > {l}"
  | .StepTimeout e l => s!"Step timeout: {e}s >= {l}s"
  | .RunTimeout e l => s!"Run timeout: {e}s >= {l}s"
  | .DenylistMatch p => s!"Path matches denylist pattern: {p}"

/-- Glob matching for `glob::Pattern` as used by the denylist (`*`, `?`,
literals; `**` behaves as repeated `*` here, which is adequate for the
default patterns). Dead code for the claims: the orchestrator always calls
`validate_input` with `source_path = None`. -/
def globMatch : List Char → List Char → Bool
  | [], [] => true
  | [], _ :: _ => false
  | '*' :: ps, s =>
    globMatch ps s ||
      (match s with
       | [] => false
       | _ :: s' => globMatch ('*' :: ps) s')
  | '?' :: ps, s =>
    (match s with
     | [] => false
     | _ :: s' => globMatch ps s')
  | p :: ps, s =>
    (match s with
     | [] => false
     | c :: s' => p == c && globMatch ps s')
termination_by p s => p.length + s.length
decreasing_by all_goals simp_arith

/-- `SafetyLimits` (src/core/safety.rs lines 17-42). -/
structure SafetyLimits where
  max_steps : Nat
  max_input_bytes : Nat
  max_output_bytes : Nat
  step_timeout_seconds : Nat
  run_timeout_seconds : Nat
  denylist_patterns : List String
deriving DecidableEq, Repr

/-- The `Default` instance of `SafetyLimits` (src/core/safety.rs lines
44-81). -/
def defaultSafetyLimits : SafetyLimits :=
  { max_steps := 50
    max_input_bytes := 10 * 1024 * 1024
    max_output_bytes := 10 * 1024 * 1024
    step_timeout_seconds := 300
    run_timeout_seconds := 3600
    denylist_patterns :=
      ["**/.env*", "**/secrets*", "**/*credential*", "**/*.pem", "**/*.key"] }

/-- `SafetyLimits::is_denylisted` (src/core/safety.rs lines 85-94). -/
def SafetyLimits.is_denylisted (l : SafetyLimits) (path : String) : Bool :=
  l.denylist_patterns.any fun pat => globMatch pat.data path.data

/-- `SafetyLimits::validate_input` (src/core/safety.rs lines 97-118). -/
def SafetyLimits.validate_input (l : SafetyLimits) (input : String)
    (source_path : Option String) : Except SafetyViolation Unit :=
  let size := strLen input
  if size > l.max_input_bytes then
    .error (.MaxInputBytes size l.max_input_bytes)
  else
    match source_path with
    | some path =>
      if l.is_denylisted path then .error (.DenylistMatch path) else .ok ()
    | none => .ok ()

/-- `SafetyLimits::validate_output` (src/core/safety.rs lines 121-130). -/
def SafetyLimits.validate_output (l : SafetyLimits) (output : String) :
    Except SafetyViolation Unit :=
  let size := strLen output
  if size > l.max_output_bytes then
    .error (.MaxOutputBytes size l.max_output_bytes)
  else .ok ()

/-- `SafetyTracker` (src/core/safety.rs lines 156-169). `started_at` is an
`Instant`; the pure model's clock never advances. -/
structure SafetyTracker where
  steps_executed : Nat
  input_bytes : Nat
  output_bytes : Nat
  started_at : Nat
deriving DecidableEq, Repr

/-- `SafetyTracker::new` (src/core/safety.rs lines 179-186). -/
def SafetyTracker.new : SafetyTracker :=
  { steps_executed := 0, input_bytes := 0, output_bytes := 0, started_at := 0 }

/-- `started_at.elapsed().as_secs()`: zero, since the model's clock does
not advance during a run. -/
def SafetyTracker.elapsedSeconds (_t : SafetyTracker) : Nat := 0

/-- `SafetyTracker::record_step` (src/core/safety.rs lines 189-193). -/
def SafetyTracker.record_step (t : SafetyTracker) (inBytes outBytes : Nat) :
    SafetyTracker :=
  { t with
    steps_executed := t.steps_executed + 1,
    input_bytes := t.input_bytes + inBytes,
    output_bytes := t.output_bytes + outBytes }

/-- `SafetyLimits::check` (src/core/safety.rs lines 133-152). -/
def SafetyLimits.check (l : SafetyLimits) (tracker : SafetyTracker) :
    Except SafetyViolation Unit :=
  if tracker.steps_executed ≥ l.max_steps then
    .error (.MaxSteps tracker.steps_executed l.max_steps)
  else
    let elapsed := tracker.elapsedSeconds
    if elapsed ≥ l.run_timeout_seconds then
      .error (.RunTimeout elapsed l.run_timeout_seconds)
    else .ok ()

/-! ## Domain events and runs (src/domain/events.rs, src/domain/run.rs,
src/domain/artifact.rs) -/

/-- `EventType` (src/domain/events.rs lines 86-110). -/
inductive EventType
  | RunStarted
  | RunCompleted
  | RunFailed
  | StepStarted
  | StepCompleted
  | StepFailed
  | StepRetrying
  | SafetyLimitReached
deriving DecidableEq, Repr

/-- `StepStatus` (src/domain/events.rs lines 115-130). -/
inductive StepStatus
  | Pending
  | Running
  | Completed
  | Failed
  | Skipped
deriving DecidableEq, Repr

/-- `Event` (src/domain/events.rs lines 14-44). `id` stands for the
`Uuid`; `run_id` is the owning run's identifier rendered as a string;
timestamps are the model clock. -/
structure Event where
  id : Nat
  timestamp : Nat
  run_id : String
  step_id : Option String
  event_type : EventType
  idempotency_key : String
  payload_summary : String
  status : StepStatus
  duration_ms : Option Nat
  error : Option String
deriving DecidableEq, Repr

/-- `Event::new` (src/domain/events.rs lines 48-68); `Uuid::new_v4()` and
`Utc::now()` are the model constants 0. -/
def Event.new (run_id : String) (step_id : Option String)
    (event_type : EventType) (idempotency_key payload_summary : String)
    (status : StepStatus) : Event :=
  { id := 0, timestamp := 0, run_id := run_id, step_id := step_id,
    event_type := event_type, idempotency_key := idempotency_key,
    payload_summary := payload_summary, status := status,
    duration_ms := none, error := none }

/-- `Event::with_duration` (src/domain/events.rs lines 71-74). -/
def Event.with_duration (e : Event) (d : Nat) : Event :=
  { e with duration_ms := some d }

/-- `Event::with_error` (src/domain/events.rs lines 77-80). -/
def Event.with_error (e : Event) (err : String) : Event :=
  { e with error := some err }

/-- `ArtifactType` (src/domain/artifact.rs). -/
inductive ArtifactType
  | StepOutput
  | Transcript
  | Wisdom
  | Summary
  | TaskList
  | DocumentReference
deriving DecidableEq, Repr

/-- `Artifact` (src/domain/artifact.rs). -/
structure Artifact where
  step_name : String
  artifact_type : ArtifactType
  content : String
  created_at : Nat
  size_bytes : Nat
deriving DecidableEq, Repr

/-- `Artifact::new` (src/domain/artifact.rs). -/
def Artifact.new (step_name : String) (artifact_type : ArtifactType)
    (content : String) : Artifact :=
  { step_name := step_name, artifact_type := artifact_type,
    content := content, created_at := 0, size_bytes := strLen content }

/-- `Artifact::from_output` (src/domain/artifact.rs). -/
def Artifact.from_output (step_name output : String) : Artifact :=
  Artifact.new step_name .StepOutput output

/-- `RunState` (src/domain/run.rs lines 160-177). -/
inductive RunState
  | Running
  | Paused
  | Completed
  | Failed (error : String)
  | SafetyLimitReached (limit : String)
deriving DecidableEq, Repr

/-- `Run` (src/domain/run.rs lines 14-43); the two `HashMap`s are
association lists. -/
structure Run where
  id : String
  pipeline_name : String
  input : String
  state : RunState
  started_at : Nat
  completed_at : Option Nat
  current_step : Nat
  artifacts : List (String × Artifact)
  step_statuses : List (String × StepStatus)
deriving DecidableEq, Repr

/-- `Run::new` (src/domain/run.rs lines 47-59). -/
def Run.new (id pipeline_name input : String) : Run :=
  { id := id, pipeline_name := pipeline_name, input := input,
    state := .Running, started_at := 0, completed_at := none,
    current_step := 0, artifacts := [], step_statuses := [] }

/-- `Run::apply_event` (src/domain/run.rs lines 90-138). Note that only a
`StepCompleted` event carrying a `step_id` increments `current_step`, and
that no branch touches `artifacts`. -/
def Run.apply_event (run : Run) (event : Event) : Run :=
  match event.event_type with
  | .RunStarted =>
    { run with state := .Running, started_at := event.timestamp }
  | .RunCompleted =>
    { run with state := .Completed, completed_at := some event.timestamp }
  | .RunFailed =>
    { run with state := .Failed (event.error.getD ""),
               completed_at := some event.timestamp }
  | .StepStarted =>
    match event.step_id with
    | some sid => { run with step_statuses := (sid, .Running) :: run.step_statuses }
    | none => run
  | .StepCompleted =>
    match event.step_id with
    | some sid =>
      { run with step_statuses := (sid, .Completed) :: run.step_statuses,
                 current_step := run.current_step + 1 }
    | none => run
  | .StepFailed =>
    match event.step_id with
    | some sid => { run with step_statuses := (sid, .Failed) :: run.step_statuses }
    | none => run
  | .StepRetrying =>
    match event.step_id with
    | some sid => { run with step_statuses := (sid, .Running) :: run.step_statuses }
    | none => run
  | .SafetyLimitReached =>
    { run with state := .SafetyLimitReached (event.error.getD ""),
               completed_at := some event.timestamp }

/-- `Run::from_events` (src/domain/run.rs lines 62-87). -/
def Run.from_events (events : List Event) : Option Run :=
  match events with
  | [] => none
  | first :: _ =>
    some (events.foldl Run.apply_event
      { id := first.run_id, pipeline_name := "", input := "",
        state := .Running, started_at := first.timestamp,
        completed_at := none, current_step := 0, artifacts := [],
        step_statuses := [] })

/-! ## Event store (src/core/event_store.rs) -/

/-- The on-disk state of one run's `EventStore`: the `events.jsonl` log
(at event granularity) and the `artifacts/` directory as a name → content
map. -/
structure EventStoreState where
  log : List Event
  artifacts_disk : List (String × String)
deriving DecidableEq, Repr

/-- `EventStore::open` for a fresh run directory. -/
def EventStoreState.empty : EventStoreState := { log := [], artifacts_disk := [] }

/-- `EventStore::append` (src/core/event_store.rs lines 117-137):
serialize, write one line, flush. -/
def EventStoreState.append (st : EventStoreState) (e : Event) : EventStoreState :=
  { st with log := st.log ++ [e] }

/-- `EventStore::replay` (src/core/event_store.rs lines 140-163): the
events in file order (the JSONL round-trip is modelled at event
granularity). -/
def EventStoreState.replay (st : EventStoreState) : List Event := st.log

/-- `EventStore::is_step_completed` (src/core/event_store.rs lines
166-175). -/
def EventStoreState.is_step_completed (st : EventStoreState)
    (idempotency_key : String) : Bool :=
  st.replay.any fun e =>
    e.idempotency_key == idempotency_key &&
      e.event_type == EventType.StepCompleted

/-- `EventStore::store_artifact` (src/core/event_store.rs lines 70-78):
write `{step}.md` (overwrite modelled by shadowing). -/
def EventStoreState.store_artifact (st : EventStoreState)
    (step_name content : String) : EventStoreState :=
  { st with artifacts_disk := (step_name, content) :: st.artifacts_disk }

/-- `EventStore::load_artifact` (src/core/event_store.rs lines 81-93). -/
def EventStoreState.load_artifact (st : EventStoreState) (step_name : String) :
    Option String :=
  alistLookup step_name st.artifacts_disk

/-- `hash_input` (src/core/event_store.rs lines 224-229): hex of the first
8 digest bytes — 16 hex characters. -/
def hash_input (input : String) : String :=
  String.mk (hexEncode ((sha256 (strBytes input)).take 8))

/-- `generate_idempotency_key` (src/core/event_store.rs lines 218-221). -/
def generate_idempotency_key (run_id step_name input : String) : String :=
  run_id ++ ":" ++ step_name ++ ":" ++ hash_input input

/-! ## Pipeline definition (src/core/pipeline.rs) -/

/-- `AdapterType` (src/core/pipeline.rs lines 133-138). -/
inductive AdapterType
  | Fabric
deriving DecidableEq, Repr

/-- `InputSource` (src/core/pipeline.rs lines 153-174). A `Static` value
is represented by its `serde_json::to_string` serialization, which is what
input resolution produces from it. -/
inductive InputSource
  | PipelineInput
  | PreviousStep (previous_step : String)
  | Artifact (artifact : String)
  | Static (value : String)
deriving DecidableEq, Repr

/-- `Step` (src/core/pipeline.rs lines 100-122). -/
structure Step where
  name : String
  adapter : AdapterType
  action : String
  input_from : InputSource
  retry_policy : RetryPolicy
  timeout_seconds : Option Nat
deriving DecidableEq, Repr

/-- `Step::timeout` (src/core/pipeline.rs lines 126-129), in seconds. -/
def Step.timeout (s : Step) (limits : SafetyLimits) : Nat :=
  s.timeout_seconds.getD limits.step_timeout_seconds

/-- `Pipeline` (src/core/pipeline.rs lines 15-29). -/
structure Pipeline where
  name : String
  description : String
  safety_limits : SafetyLimits
  steps : List Step
deriving DecidableEq, Repr

/-! ## Orchestrator (src/core/orchestrator.rs)

The executor capability (`Adapter::execute` of the orchestrator's
`FabricAdapter`) is a parameter: action, input and timeout to either
output content or an error string (`AdapterOutput`'s optional token/cost
metadata is dropped — the orchestrator reads only `content`). Times
(`Instant`, `Utc::now`, sleeps) are the non-advancing model clock 0, so
recorded durations are 0 and the retry sleep is a no-op. The
`StepRetrying`/`StepFailed` payload texts omit the `{:?}`-formatted delay;
no claim reads `payload_summary`. -/

/-- The executor capability. -/
def Executor : Type := String → String → Nat → Except String String

/-- `Orchestrator::resolve_input` (src/core/orchestrator.rs lines
326-361). -/
def resolve_input (pipeline_input : String)
    (artifacts : List (String × Artifact)) (step : Step) :
    Except String String :=
  match step.input_from with
  | .PipelineInput => .ok pipeline_input
  | .PreviousStep prev =>
    match alistLookup prev artifacts with
    | some a => .ok a.content
    | none =>
      let n := step.name
      .error s!"Step '{n}' references non-existent artifact from step '{prev}'"
  | .Artifact art =>
    match alistLookup art artifacts with
    | some a => .ok a.content
    | none =>
      let n := step.name
      .error s!"Step '{n}' references non-existent artifact '{art}'"
  | .Static value => .ok value

/-- The `StepStarted` event appended at the top of each iteration of the
retry loop (src/core/orchestrator.rs lines 211-219). -/
def stepStartedEvent (run : Run) (step : Step) (idem_key : String)
    (attempt : Nat) : Event :=
  let sname := step.name
  Event.new run.id (some step.name) .StepStarted idem_key
    s!"Step '{sname}' attempt {attempt}" .Running

/-- The success path of one attempt (src/core/orchestrator.rs lines
235-261): validate the output (a violation propagates with `?`), track
output bytes, persist the artifact, log `StepCompleted`. -/
def stepSuccess (limits : SafetyLimits) (step : Step) (idem_key : String)
    (store : EventStoreState) (run : Run) (tracker : SafetyTracker)
    (content : String) :
    EventStoreState × Run × SafetyTracker × Except String Artifact :=
  match limits.validate_output content with
  | .error v => (store, run, tracker, .error v.toMessage)
  | .ok _ =>
    let tracker :=
      { tracker with output_bytes := tracker.output_bytes + strLen content }
    let store := store.store_artifact step.name content
    let sname := step.name
    let complete_event :=
      (Event.new run.id (some step.name) .StepCompleted idem_key
        s!"Step '{sname}' completed in 0ms" .Completed).with_duration 0
    let store := store.append complete_event
    let run :=
      { run with
        step_statuses := (step.name, StepStatus.Completed) :: run.step_statuses }
    (store, run, tracker, .ok (Artifact.from_output step.name content))

/-- The exhausted-retries path of one attempt (src/core/orchestrator.rs
lines 294-319): log `StepFailed` and surface the error. -/
def stepFailure (step : Step) (idem_key : String) (store : EventStoreState)
    (run : Run) (tracker : SafetyTracker) (e : String) (attempt : Nat) :
    EventStoreState × Run × SafetyTracker × Except String Artifact :=
  let sname := step.name
  let fail_event :=
    ((Event.new run.id (some step.name) .StepFailed idem_key
      s!"Step '{sname}' failed after {attempt} attempts: {e}"
      .Failed).with_duration 0).with_error e
  let store := store.append fail_event
  let run :=
    { run with
      step_statuses := (step.name, StepStatus.Failed) :: run.step_statuses }
  (store, run, tracker, .error e)

/-- The retry loop inside `Orchestrator::execute_step_with_retry`
(src/core/orchestrator.rs lines 204-322). `attempt0` is the `attempt`
counter before the `attempt += 1` at the top of the loop body. The Rust
loop is bounded because a retry requires `should_retry attempt`, i.e.
`attempt0 + 1 < max_attempts`; `fuel` carries that bound structurally,
with `fuel = max_attempts - attempt0` at every call (the entry point
passes `max_attempts`, each recursion decrements both sides). Under that
invariant `fuel = 0` implies `should_retry` is false, so the zero-fuel
equation goes straight to the `StepFailed` path the Rust loop takes when
retries run out, and the positive-fuel equation is the Rust body
verbatim. -/
def stepAttemptLoop (exec : Executor) (limits : SafetyLimits) (step : Step)
    (input idem_key : String) (timeout : Nat) :
    Nat → EventStoreState → Run → SafetyTracker → Nat →
      EventStoreState × Run × SafetyTracker × Except String Artifact
  | 0, store, run, tracker, attempt0 =>
    let attempt := attempt0 + 1
    let store := store.append (stepStartedEvent run step idem_key attempt)
    let run :=
      { run with
        step_statuses := (step.name, StepStatus.Running) :: run.step_statuses }
    (match exec step.action input timeout with
     | .ok content => stepSuccess limits step idem_key store run tracker content
     | .error e => stepFailure step idem_key store run tracker e attempt)
  | fuel + 1, store, run, tracker, attempt0 =>
    let attempt := attempt0 + 1
    let store := store.append (stepStartedEvent run step idem_key attempt)
    let run :=
      { run with
        step_statuses := (step.name, StepStatus.Running) :: run.step_statuses }
    (match exec step.action input timeout with
     | .ok content => stepSuccess limits step idem_key store run tracker content
     | .error e =>
       if step.retry_policy.should_retry attempt then
         let sname := step.name
         let retry_event :=
           (Event.new run.id (some step.name) .StepRetrying
             s!"{idem_key}:retry:{attempt}"
             s!"Step '{sname}' failed, retrying: {e}" .Running).with_error e
         stepAttemptLoop exec limits step input idem_key timeout fuel
           (store.append retry_event) run tracker attempt
       else stepFailure step idem_key store run tracker e attempt)

/-- `Orchestrator::execute_step_with_retry` (src/core/orchestrator.rs
lines 181-323): idempotency short-circuit, then the retry loop (entered
with `attempt0 = 0` and the matching fuel `max_attempts`). -/
def execute_step_with_retry (exec : Executor) (store : EventStoreState)
    (run : Run) (step : Step) (input : String) (limits : SafetyLimits)
    (tracker : SafetyTracker) :
    EventStoreState × Run × SafetyTracker × Except String Artifact :=
  let idem_key := generate_idempotency_key run.id step.name input
  let timeout := step.timeout limits
  if store.is_step_completed idem_key then
    match alistLookup step.name run.artifacts with
    | some a => (store, run, tracker, .ok a)
    | none => (store, run, tracker, .ok (Artifact.from_output step.name ""))
  else
    stepAttemptLoop exec limits step input idem_key timeout
      step.retry_policy.max_attempts store run tracker 0

/-- `Orchestrator::handle_safety_violation` (src/core/orchestrator.rs
lines 364-390). -/
def handle_safety_violation (store : EventStoreState) (run : Run)
    (violation : SafetyViolation) : EventStoreState × Run :=
  let error_msg := violation.toMessage
  let run' :=
    { run with state := .SafetyLimitReached error_msg, completed_at := some 0 }
  let rid := run.id
  let event :=
    (Event.new run.id none .SafetyLimitReached s!"{rid}:safety"
      s!"Safety limit reached: {error_msg}" .Failed).with_error error_msg
  (store.append event, run')

/-- `Orchestrator::handle_run_failure` (src/core/orchestrator.rs lines
393-419). -/
def handle_run_failure (store : EventStoreState) (run : Run)
    (error_msg : String) : EventStoreState × Run :=
  let run' := { run with state := .Failed error_msg, completed_at := some 0 }
  let rid := run.id
  let event :=
    (Event.new run.id none .RunFailed s!"{rid}:complete"
      s!"Run failed: {error_msg}" .Failed).with_error error_msg
  (store.append event, run')

/-- `Orchestrator::complete_run` (src/core/orchestrator.rs lines
422-439). -/
def complete_run (store : EventStoreState) (run : Run) :
    EventStoreState × Except String Run :=
  let run' := { run with state := .Completed, completed_at := some 0 }
  let rid := run.id
  let pname := run.pipeline_name
  let event :=
    Event.new run.id none .RunCompleted s!"{rid}:complete"
      s!"Pipeline '{pname}' completed" .Completed
  (store.append event, .ok run')

/-- The per-step loop of `Orchestrator::run_pipeline`
(src/core/orchestrator.rs lines 66-106): safety check, input resolution
(`?` aborts), input validation (`?` aborts), step execution, artifact and
tracker bookkeeping. -/
def runStepsLoop (exec : Executor) (pipeline : Pipeline) (input : String) :
    List (Nat × Step) → EventStoreState → Run → SafetyTracker →
      List (String × Artifact) → EventStoreState × Except String Run
  | [], store, run, _tracker, _artifacts => complete_run store run
  | (step_idx, step) :: rest, store, run, tracker, artifacts =>
    let run := { run with current_step := step_idx }
    match pipeline.safety_limits.check tracker with
    | .error violation =>
      let out := handle_safety_violation store run violation
      (out.1, .ok out.2)
    | .ok _ =>
      match resolve_input input artifacts step with
      | .error e => (store, .error e)
      | .ok step_input =>
        match pipeline.safety_limits.validate_input step_input none with
        | .error v => (store, .error v.toMessage)
        | .ok _ =>
          match execute_step_with_retry exec store run step step_input
              pipeline.safety_limits tracker with
          | (store', run', tracker', .ok artifact) =>
            let artifacts' := (step.name, artifact) :: artifacts
            let run'' :=
              { run' with artifacts := (step.name, artifact) :: run'.artifacts }
            let tracker'' := tracker'.record_step (strLen step_input) 0
            runStepsLoop exec pipeline input rest store' run'' tracker'' artifacts'
          | (store', run', _tracker', .error e) =>
            let out := handle_run_failure store' run' e
            (out.1, .ok out.2)

/-- `Orchestrator::run_pipeline` (src/core/orchestrator.rs lines 42-107).
`run_id` models the freshly minted `Uuid::new_v4()`. -/
def run_pipeline (run_id : String) (exec : Executor) (pipeline : Pipeline)
    (input : String) : EventStoreState × Except String Run :=
  let store := EventStoreState.empty
  let run := Run.new run_id pipeline.name input
  let tracker := SafetyTracker.new
  let pname := pipeline.name
  let start_event :=
    Event.new run_id none .RunStarted s!"{run_id}:start"
      s!"Pipeline '{pname}' started" .Running
  let store := store.append start_event
  runStepsLoop exec pipeline input pipeline.steps.enum store run tracker []

/-- The per-step loop of `Orchestrator::resume_run`
(src/core/orchestrator.rs lines 134-175): safety check, input resolution
(`?` aborts), the in-loop idempotency check (`continue` skips the step
without touching the artifact map), step execution. Unlike
`run_pipeline`, the resume loop performs no input validation. -/
def resumeStepsLoop (run_id : String) (exec : Executor) (pipeline : Pipeline)
    (input : String) :
    List (Nat × Step) → EventStoreState → Run → SafetyTracker →
      List (String × Artifact) → EventStoreState × Except String Run
  | [], store, run, _tracker, _artifacts => complete_run store run
  | (step_idx, step) :: rest, store, run, tracker, artifacts =>
    let run := { run with current_step := step_idx }
    match pipeline.safety_limits.check tracker with
    | .error violation =>
      let out := handle_safety_violation store run violation
      (out.1, .ok out.2)
    | .ok _ =>
      match resolve_input input artifacts step with
      | .error e => (store, .error e)
      | .ok step_input =>
        let idem_key := generate_idempotency_key run_id step.name step_input
        if store.is_step_completed idem_key then
          resumeStepsLoop run_id exec pipeline input rest store run tracker
            artifacts
        else
          match execute_step_with_retry exec store run step step_input
              pipeline.safety_limits tracker with
          | (store', run', tracker', .ok artifact) =>
            let artifacts' := (step.name, artifact) :: artifacts
            let run'' :=
              { run' with artifacts := (step.name, artifact) :: run'.artifacts }
            let tracker'' := tracker'.record_step (strLen step_input) 0
            resumeStepsLoop run_id exec pipeline input rest store' run'' tracker''
              artifacts'
          | (store', run', _tracker', .error e) =>
            let out := handle_run_failure store' run' e
            (out.1, .ok out.2)

/-- `Orchestrator::resume_run` (src/core/orchestrator.rs lines 111-178):
replay the log, rebuild the `Run`, clone its (never-populated) artifact
map, and continue from `run.current_step`. -/
def resume_run (run_id : String) (exec : Executor) (pipeline : Pipeline)
    (input : String) (store : EventStoreState) :
    EventStoreState × Except String Run :=
  let events := store.replay
  if events.isEmpty then
    (store, .error s!"No events found for run {run_id}")
  else
    match Run.from_events events with
    | none => (store, .error "Failed to reconstruct run state")
    | some run =>
      let tracker := SafetyTracker.new
      let artifacts := run.artifacts
      let start_step := run.current_step
      resumeStepsLoop run_id exec pipeline input
        (pipeline.steps.enum.drop start_step) store run tracker artifacts

/-! ## Resume scenario fixture (spec §8, scenario 2)

A two-step pipeline `[echo, upper]` over input `"hello"`, where `upper`
takes its input from `echo`'s output, resumed from a log that already
contains `StepCompleted` for `echo`, with `echo`'s artifact bytes stored
on disk under the step name. -/

/-- Scenario pipeline: `echo` then `upper`, `upper` wired to
`previous_step: echo`. -/
def resumeScenarioPipeline : Pipeline :=
  { name := "p", description := "", safety_limits := defaultSafetyLimits,
    steps :=
      [{ name := "echo", adapter := .Fabric, action := "a1",
         input_from := .PipelineInput, retry_policy := ⟨3, 0, 0, 2⟩,
         timeout_seconds := none },
       { name := "upper", adapter := .Fabric, action := "a2",
         input_from := .PreviousStep "echo", retry_policy := ⟨3, 0, 0, 2⟩,
         timeout_seconds := none }] }

/-- Scenario store: the first step's events are in the log and its
artifact bytes are on disk keyed by the step name. -/
def resumeScenarioStore : EventStoreState :=
  { log :=
      [Event.new "r" none .RunStarted "r:start" "Pipeline 'p' started" .Running,
       Event.new "r" (some "echo") .StepStarted "k1" "Step 'echo' attempt 1"
         .Running,
       (Event.new "r" (some "echo") .StepCompleted "k1"
         "Step 'echo' completed in 0ms" .Completed).with_duration 0],
    artifacts_disk := [("echo", "hello")] }

/-! ## C2 fixtures: concrete safety limits and a one-step pipeline -/

/-- A single pipeline step reading the pipeline input, used to instantiate
the C2 clauses at concrete inputs. -/
def c2Step : Step :=
  { name := "s", adapter := .Fabric, action := "a",
    input_from := .PipelineInput, retry_policy := ⟨3, 0, 0, 2⟩,
    timeout_seconds := none }

/-- A one-step pipeline over the given safety limits. -/
def c2Pipeline (l : SafetyLimits) : Pipeline :=
  { name := "p", description := "", safety_limits := l, steps := [c2Step] }

/-- Limits with `max_steps = 0`: the between-step check trips `MaxSteps`
before the first step. -/
def c2LimitsSteps : SafetyLimits := ⟨0, 10, 10, 1, 1, []⟩

/-- Limits with `run_timeout_seconds = 0`: the between-step check trips
`RunTimeout` (the model clock reads 0 seconds elapsed). -/
def c2LimitsTime : SafetyLimits := ⟨5, 10, 10, 1, 0, []⟩

/-- Limits with `max_input_bytes = 1`: step input validation trips
`MaxInputBytes`. -/
def c2LimitsInput : SafetyLimits := ⟨5, 1, 10, 1, 5, []⟩

/-- Limits with `max_output_bytes = 1`: output validation trips
`MaxOutputBytes`. -/
def c2LimitsOutput : SafetyLimits := ⟨5, 100, 1, 1, 5, []⟩

/-! # Theorems -/

/-! ## Facts about the hash embedding -/

theorem wordBytes_length (w : Nat) : (wordBytes w).length = 4 := rfl

theorem wordBytes_lt (w : Nat) : ∀ b ∈ wordBytes w, b < 256 := by
  simp only [wordBytes, List.mem_cons, List.not_mem_nil, or_false]
  rintro b (rfl | rfl | rfl | rfl) <;> exact Nat.mod_lt _ (by norm_num)

theorem sha256_length (msg : List Nat) : (sha256 msg).length = 32 := by
  simp [sha256, wordBytes]

theorem sha256_bytes_lt (msg : List Nat) : ∀ b ∈ sha256 msg, b < 256 := by
  intro b hb
  simp only [sha256, List.mem_append] at hb
  rcases hb with ((((((h | h) | h) | h) | h) | h) | h) | h <;>
    exact wordBytes_lt _ b h

theorem hexDigitChar_mem (n : Nat) (h : n < 16) : hexDigitChar n ∈ lowerHexChars := by
  interval_cases n <;> decide

theorem byteHex_mem (b : Nat) (h : b < 256) : ∀ c ∈ byteHex b, c ∈ lowerHexChars := by
  intro c hc
  simp only [byteHex, List.mem_cons, List.not_mem_nil, or_false] at hc
  rcases hc with rfl | rfl
  · exact hexDigitChar_mem _ (Nat.div_lt_of_lt_mul (by omega))
  · exact hexDigitChar_mem _ (Nat.mod_lt _ (by norm_num))

theorem hexEncode_length (bytes : List Nat) :
    (hexEncode bytes).length = 2 * bytes.length := by
  induction bytes with
  | nil => rfl
  | cons b bs ih =>
    simp only [hexEncode, List.map_cons, List.flatten, byteHex] at *
    simp [ih]
    omega

theorem hexEncode_mem (bytes : List Nat) (h : ∀ b ∈ bytes, b < 256) :
    ∀ c ∈ hexEncode bytes, c ∈ lowerHexChars := by
  intro c hc
  simp only [hexEncode] at hc
  rcases List.mem_flatten.1 hc with ⟨l, hl, hcl⟩
  rcases List.mem_map.1 hl with ⟨b, hb, rfl⟩
  exact byteHex_mem b (h b hb) c hcl

/-! ## C4 — queue item identifier length

The spec claims the enqueue-time identifier is the first **24** lowercase
hex characters of `SHA-256(file_bytes)`. The source
(`compute_file_hash`, src/ingest/queue.rs lines 449-457) keeps only the
first **12** hex characters (`format!("{:x}", result)[..12]`), and its own
doc comments say 12. The claim is refuted at a concrete input and the
12-character version is proved. -/

/-- C4 (counterexample): for the empty file, the enqueue-time identifier is
not the first 24 hex characters of the SHA-256 digest — it is 12 characters
long, not 24. -/
theorem c4_counterexample :
    compute_file_hash [] ≠ (hexEncode (sha256 [])).take 24 ∧
      (compute_file_hash []).length = 12 := by
  constructor
  · intro h
    have := congrArg List.length h
    simp only [compute_file_hash, List.length_take, hexEncode_length,
      sha256_length] at this
    omega
  · simp [compute_file_hash, List.length_take, hexEncode_length, sha256_length]

/-- C4 (amended): for every file, the queue item identifier computed at
enqueue time is the first 12 (not 24) characters of the lowercase hex
SHA-256 digest of the file's bytes; it has length 12, every character is a
lowercase hex digit, and the full digest it truncates has 64 hex
characters. -/
theorem c4_id_is_first12_of_sha256 (content : List Nat) :
    compute_file_hash content = (hexEncode (sha256 content)).take 12 ∧
      (compute_file_hash content).length = 12 ∧
      (∀ c ∈ compute_file_hash content, c ∈ lowerHexChars) ∧
      (hexEncode (sha256 content)).length = 64 := by
  refine ⟨rfl, ?_, ?_, ?_⟩
  · simp [compute_file_hash, List.length_take, hexEncode_length, sha256_length]
  · intro c hc
    exact hexEncode_mem _ (sha256_bytes_lt content) c
      (List.take_subset _ _ hc)
  · simp [hexEncode_length, sha256_length]

/-! ## C6 — retry backoff delay

The spec claims `delay_for_attempt(n) = min(initial × multiplier^(n−1),
max_delay)` for every attempt `n ≥ 1`. The source returns
`initial_delay_ms` *uncapped* whenever `attempt <= 1`, so a policy with
`initial_delay_ms > max_delay_ms` refutes the claim at `n = 1`. For
`n ≥ 2` the formula is exactly what the source computes. -/

/-- C6 (counterexample): with `initial_delay_ms = 100` and
`max_delay_ms = 50`, attempt 1 gets delay 100 while the spec formula gives
`min(100·2⁰, 50) = 50`. -/
theorem c6_counterexample :
    RetryPolicy.delay_for_attempt ⟨3, 100, 50, 2⟩ 1 = 100 ∧
      specDelayForAttempt ⟨3, 100, 50, 2⟩ 1 = 50 ∧
      RetryPolicy.delay_for_attempt ⟨3, 100, 50, 2⟩ 1 ≠
        specDelayForAttempt ⟨3, 100, 50, 2⟩ 1 := by
  have h50 : Int.toNat 50 = 50 := rfl
  refine ⟨rfl, ?_, ?_⟩ <;>
    norm_num [specDelayForAttempt, f64AsU64, RetryPolicy.delay_for_attempt, h50]

/-- C6 (amended): for every retry policy, attempt 1 (and 0) is delayed by
`initial_delay_ms` with no cap, and every attempt `n ≥ 2` is delayed by
`min(initial_delay_ms × backoff_multiplier^(n−1), max_delay_ms)`
milliseconds (the floating-point arithmetic modelled exactly). -/
theorem c6_delay_formula (p : RetryPolicy) (n : Nat) (h : 2 ≤ n) :
    p.delay_for_attempt n = specDelayForAttempt p n ∧
      p.delay_for_attempt 1 = p.initial_delay_ms := by
  constructor
  · simp only [RetryPolicy.delay_for_attempt, specDelayForAttempt]
    rw [if_neg (by omega)]
  · rfl

/-- C6 witness: the amended formula applied at attempt 3 of the default
policy shape. -/
theorem c6_delay_formula_witness :
    2 ≤ 3 ∧
      (RetryPolicy.delay_for_attempt ⟨3, 1000, 10000, 2⟩ 3 =
          specDelayForAttempt ⟨3, 1000, 10000, 2⟩ 3 ∧
        RetryPolicy.delay_for_attempt ⟨3, 1000, 10000, 2⟩ 1 = 1000) :=
  ⟨by norm_num, c6_delay_formula ⟨3, 1000, 10000, 2⟩ 3 (by norm_num)⟩

/-! ## Queue replay facts -/

theorem queueReplay_append (log : List QueueEvent) (e : QueueEvent) :
    queueReplay (log ++ [e]) = applyQueueEvent (queueReplay log) e := by
  simp [queueReplay, List.foldl_append]

theorem lookup_alistUpdate (k : String) (f : QueueItem → QueueItem)
    (items : List (String × QueueItem)) :
    ∀ v, alistLookup k items = some v →
      alistLookup k (alistUpdate k f items) = some (f v) := by
  induction items with
  | nil => intro v h; simp [alistLookup] at h
  | cons p rest ih =>
    obtain ⟨k', v'⟩ := p
    intro v h
    by_cases hk : k' = k
    · subst hk
      simp [alistLookup] at h
      simp [alistUpdate, alistLookup, h]
    · simp [alistLookup, hk] at h
      simpa [alistUpdate, hk, alistLookup] using ih v h

/-! ## C5 — enqueue laws

`VoiceQueue::enqueue` (src/ingest/queue.rs lines 245-300) replays the log
and branches on the replayed state of the content hash. -/

/-- C5: (i) unknown hash — append one `Enqueued` event and return
queued-new; (ii) state `Done` — already-processed, nothing written;
(iii) state `Failed` — append exactly one `ResetForRetry` event, which
returns the item to `Pending` with `retry_count` incremented by one;
(iv) any other state — already-queued, nothing written; (v) hence
enqueueing the same file bytes twice (any metadata) appends exactly one
`Enqueued` event. -/
theorem c5_enqueue_laws (log : List QueueEvent) (path path₂ : String)
    (content : List Nat) (size size₂ t t₂ now now₂ : Nat) :
    (alistLookup (computeFileHashStr content) (queueReplay log) = none →
      ∃ ev, VoiceQueue.enqueue log path content size t now =
          (log ++ [ev], .Queued (computeFileHashStr content)) ∧
        ev.event_type = QueueEventType.Enqueued) ∧
    (∀ item, alistLookup (computeFileHashStr content) (queueReplay log) = some item →
      item.status = VoiceQueueStatus.Done →
      VoiceQueue.enqueue log path content size t now =
        (log, .AlreadyProcessed (computeFileHashStr content))) ∧
    (∀ item, alistLookup (computeFileHashStr content) (queueReplay log) = some item →
      item.status = VoiceQueueStatus.Failed →
      ∃ ev, VoiceQueue.enqueue log path content size t now =
          (log ++ [ev], .ResetForRetry (computeFileHashStr content)) ∧
        ev.event_type = QueueEventType.ResetForRetry ∧
        alistLookup (computeFileHashStr content) (queueReplay (log ++ [ev])) =
          some { item with
                 status := VoiceQueueStatus.Pending,
                 retry_count := item.retry_count + 1,
                 error := none, started_at := none, completed_at := none }) ∧
    (∀ item, alistLookup (computeFileHashStr content) (queueReplay log) = some item →
      item.status = VoiceQueueStatus.Pending ∨
        item.status = VoiceQueueStatus.Processing →
      VoiceQueue.enqueue log path content size t now =
        (log, .AlreadyQueued (computeFileHashStr content))) ∧
    (alistLookup (computeFileHashStr content) (queueReplay log) = none →
      ∃ new,
        (VoiceQueue.enqueue
            (VoiceQueue.enqueue log path content size t now).1
            path₂ content size₂ t₂ now₂).1 = log ++ new ∧
        (new.filter fun e => e.event_type == QueueEventType.Enqueued).length
          = 1 ∧
        (VoiceQueue.enqueue
            (VoiceQueue.enqueue log path content size t now).1
            path₂ content size₂ t₂ now₂).2 =
          .AlreadyQueued (computeFileHashStr content)) := by
  refine ⟨?_, ?_, ?_, ?_, ?_⟩
  · intro h
    refine ⟨{ timestamp := now, item_id := computeFileHashStr content,
              event_type := .Enqueued,
              data := some (.itemData
                { file_path := path, file_name := fileNameOf path,
                  file_size := size, detected_at := t }) }, ?_, rfl⟩
    simp [VoiceQueue.enqueue, h]
  · intro item h hst
    simp [VoiceQueue.enqueue, h, hst]
  · intro item h hst
    refine ⟨{ timestamp := now, item_id := computeFileHashStr content,
              event_type := .ResetForRetry, data := none }, ?_, rfl, ?_⟩
    · simp [VoiceQueue.enqueue, h, hst]
    · rw [queueReplay_append]
      simpa [applyQueueEvent] using
        lookup_alistUpdate (computeFileHashStr content) _ (queueReplay log) item h
  · intro item h hst
    rcases hst with hst | hst <;> simp [VoiceQueue.enqueue, h, hst]
  · intro h
    have h1 : VoiceQueue.enqueue log path content size t now =
        (log ++ [{ timestamp := now, item_id := computeFileHashStr content,
                   event_type := .Enqueued,
                   data := some (.itemData
                     { file_path := path, file_name := fileNameOf path,
                       file_size := size, detected_at := t }) }],
         .Queued (computeFileHashStr content)) := by
      simp [VoiceQueue.enqueue, h]
    refine ⟨[{ timestamp := now, item_id := computeFileHashStr content,
               event_type := .Enqueued,
               data := some (.itemData
                 { file_path := path, file_name := fileNameOf path,
                   file_size := size, detected_at := t }) }], ?_, by simp, ?_⟩
    all_goals
      rw [h1]
      simp [VoiceQueue.enqueue, queueReplay_append, applyQueueEvent, alistLookup]

/-- C5 witness: from the empty log, the double-enqueue law applied to a
one-byte file. -/
theorem c5_enqueue_laws_witness :
    alistLookup (computeFileHashStr [1]) (queueReplay []) = none ∧
      ∃ new,
        (VoiceQueue.enqueue
            (VoiceQueue.enqueue [] "a/f.m4a" [1] 1 2 3).1
            "b/g.m4a" [1] 4 5 6).1 = [] ++ new ∧
        (new.filter fun e => e.event_type == QueueEventType.Enqueued).length
          = 1 ∧
        (VoiceQueue.enqueue
            (VoiceQueue.enqueue [] "a/f.m4a" [1] 1 2 3).1
            "b/g.m4a" [1] 4 5 6).2 =
          .AlreadyQueued (computeFileHashStr [1]) :=
  ⟨rfl,
    (c5_enqueue_laws [] "a/f.m4a" "b/g.m4a" [1] 1 4 2 5 3 6).2.2.2.2 rfl⟩

/-! ## C7 — mark_processing

`VoiceQueue::mark_processing` (src/ingest/queue.rs lines 317-337) replays,
then requires the item to exist *and* to be `Pending`; an unknown id yields
`NotFound`, not `InvalidTransition`, which refutes the claim's "in every
other case it returns an InvalidTransition error". -/

/-- C7 (counterexample): on the empty log, `mark_processing("x")` returns
`NotFound`, which is not an `InvalidTransition` error (the log is still
left unchanged). -/
theorem c7_counterexample :
    VoiceQueue.mark_processing [] "x" 0 = ([], some (.NotFound "x")) ∧
      ∀ a b, VoiceQueueError.NotFound "x" ≠ .InvalidTransition a b := by
  exact ⟨rfl, fun a b h => VoiceQueueError.noConfusion h⟩

/-- C7 (amended): `mark_processing(id)` appends exactly one
`ProcessingStarted` event when the item exists and is `Pending`; when the
item exists in any other state it returns `InvalidTransition` and appends
nothing; when no item with that id exists it returns `NotFound` and
appends nothing. -/
theorem c7_mark_processing_laws (log : List QueueEvent) (id : String)
    (now : Nat) :
    (∀ item, alistLookup id (queueReplay log) = some item →
      item.status = VoiceQueueStatus.Pending →
      VoiceQueue.mark_processing log id now =
        (log ++ [{ timestamp := now, item_id := id,
                   event_type := .ProcessingStarted, data := none }], none)) ∧
    (∀ item, alistLookup id (queueReplay log) = some item →
      item.status ≠ VoiceQueueStatus.Pending →
      VoiceQueue.mark_processing log id now =
        (log, some (.InvalidTransition item.status .Processing))) ∧
    (alistLookup id (queueReplay log) = none →
      VoiceQueue.mark_processing log id now = (log, some (.NotFound id))) := by
  refine ⟨?_, ?_, ?_⟩
  · intro item h hst
    simp [VoiceQueue.mark_processing, h, hst]
  · intro item h hst
    simp [VoiceQueue.mark_processing, h, hst]
  · intro h
    simp [VoiceQueue.mark_processing, h]

/-! ## C9 — a flushed StepCompleted append is observable

`EventStore::append` and `EventStore::is_step_completed`
(src/core/event_store.rs lines 117-137, 166-175): the appended record
round-trips through the replayed log into the completion check. -/

/-- C9: after `append` of a `StepCompleted` event carrying idempotency key
`K` returns, `is_step_completed(K)` is true. -/
theorem c9_step_completed_observable (st : EventStoreState) (e : Event)
    (K : String) (h1 : e.event_type = EventType.StepCompleted)
    (h2 : e.idempotency_key = K) :
    (st.append e).is_step_completed K = true := by
  simp [EventStoreState.is_step_completed, EventStoreState.append,
    EventStoreState.replay, List.any_append, h1, h2]

/-- C9 witness: a concrete completed-step event on the empty store. -/
theorem c9_step_completed_observable_witness :
    ((Event.new "r" (some "s") EventType.StepCompleted "k" "done"
        StepStatus.Completed).event_type = EventType.StepCompleted ∧
      (Event.new "r" (some "s") EventType.StepCompleted "k" "done"
        StepStatus.Completed).idempotency_key = "k") ∧
      (EventStoreState.empty.append
          (Event.new "r" (some "s") EventType.StepCompleted "k" "done"
            StepStatus.Completed)).is_step_completed "k" = true :=
  ⟨⟨rfl, rfl⟩, c9_step_completed_observable _ _ _ rfl rfl⟩

/-! ## C10 — current_step counting and the resume start index

`Run::apply_event` (src/domain/run.rs lines 112-118) increments
`current_step` only for a `StepCompleted` event that carries a `step_id`
(duplicates each count); `resume_run` skips exactly that many steps. -/

theorem foldl_apply_event_current_step (events : List Event) (r : Run) :
    (events.foldl Run.apply_event r).current_step =
      r.current_step +
        (events.filter fun e =>
          e.event_type == EventType.StepCompleted && e.step_id.isSome).length := by
  induction events generalizing r with
  | nil => simp
  | cons e es ih =>
    have hstep : (Run.apply_event r e).current_step =
        r.current_step +
          (if e.event_type == EventType.StepCompleted && e.step_id.isSome
            then 1 else 0) := by
      rcases e with ⟨eid, ts, rid, sid, et, ik, ps, st, dm, er⟩
      cases et <;> cases sid <;> simp [Run.apply_event]
    rw [List.foldl_cons, ih, hstep, List.filter_cons]
    split
    · simp only [List.length_cons]; omega
    · omega

/-- C10 (counterexample): a `StepCompleted` event without a `step_id` is
*not* counted — `from_events` yields `current_step = 0` although the list
holds one `StepCompleted` event. -/
theorem c10_counterexample :
    (Run.from_events
        [Event.new "r" none .RunStarted "r:start" "started" .Running,
         Event.new "r" none .StepCompleted "k" "completed" .Completed]).map
        Run.current_step = some 0 ∧
      ([Event.new "r" none .RunStarted "r:start" "started" .Running,
        Event.new "r" none .StepCompleted "k" "completed" .Completed].filter
          fun e => e.event_type == EventType.StepCompleted).length = 1 ∧
      (0 : Nat) ≠ 1 :=
  ⟨rfl, rfl, by omega⟩

/-- C10 (amended): for every event list that reconstructs to a run,
`current_step` equals the number of `StepCompleted` events *that carry a
step_id* (duplicate completions each count, whatever their key), and
`resume_run` on a store holding those events starts its step loop at
exactly that index of the enumerated pipeline steps. -/
theorem c10_current_step_resume (events : List Event) (run : Run)
    (h : Run.from_events events = some run) :
    run.current_step =
      (events.filter fun e =>
        e.event_type == EventType.StepCompleted && e.step_id.isSome).length ∧
    ∀ (run_id : String) (exec : Executor) (P : Pipeline) (input : String)
      (store : EventStoreState), store.log = events →
      resume_run run_id exec P input store =
        resumeStepsLoop run_id exec P input
          (P.steps.enum.drop
            ((events.filter fun e =>
              e.event_type == EventType.StepCompleted &&
                e.step_id.isSome).length))
          store run SafetyTracker.new run.artifacts := by
  cases events with
  | nil => simp [Run.from_events] at h
  | cons first rest =>
    simp only [Run.from_events, Option.some.injEq] at h
    have hcs : run.current_step =
        ((first :: rest).filter fun e =>
          e.event_type == EventType.StepCompleted && e.step_id.isSome).length := by
      rw [← h, foldl_apply_event_current_step]
      simp
    refine ⟨hcs, ?_⟩
    intro run_id exec P input store hlog
    rw [show resume_run run_id exec P input store =
        (if store.replay.isEmpty then
          (store, .error s!"No events found for run {run_id}")
        else
          match Run.from_events store.replay with
          | none => (store, .error "Failed to reconstruct run state")
          | some r =>
            resumeStepsLoop run_id exec P input
              (P.steps.enum.drop r.current_step) store r SafetyTracker.new
              r.artifacts) from rfl]
    rw [show store.replay = first :: rest from hlog]
    simp only [List.isEmpty_cons, Bool.false_eq_true, if_false,
      Run.from_events, h, hcs]

/-- C10 witness: one completed step with a step id gives start index 1. -/
theorem c10_current_step_resume_witness :
    Run.from_events
        [Event.new "r" none .RunStarted "r:start" "started" .Running,
         Event.new "r" (some "a") .StepCompleted "k" "completed" .Completed] =
      some { id := "r", pipeline_name := "", input := "", state := .Running,
             started_at := 0, completed_at := none, current_step := 1,
             artifacts := [], step_statuses := [("a", .Completed)] } ∧
      ({ id := "r", pipeline_name := "", input := "", state := .Running,
         started_at := 0, completed_at := none, current_step := 1,
         artifacts := [], step_statuses := [("a", .Completed)] } : Run).current_step =
        ([Event.new "r" none .RunStarted "r:start" "started" .Running,
          Event.new "r" (some "a") .StepCompleted "k" "completed"
            .Completed].filter fun e =>
            e.event_type == EventType.StepCompleted && e.step_id.isSome).length :=
  ⟨by decide,
    (c10_current_step_resume _ _ (by decide)).1⟩

/-! ## C1 — resume does not reread stored artifacts

The claim (and spec §3 "Replayable", §8 scenario 2) says the orchestrator,
on resume, rereads the completed step's artifact bytes from the on-disk
store so later steps resolve to them. In the source, `Run::apply_event`
never populates `run.artifacts`, `resume_run` clones that empty map
(src/core/orchestrator.rs line 126), and the skipped step's `continue`
(line 152) adds nothing to it; `EventStore::load_artifact` is never called
on the resume path. A later step that references the completed step
therefore fails input resolution and the resume aborts. -/

/-- C1: resuming the scenario-2 fixture aborts with a missing-artifact
error for `upper` — the store (including the on-disk `echo ↦ "hello"`
artifact it never reads) is returned unchanged — instead of resolving
`upper`'s input to the stored bytes. -/
theorem c1_resume_does_not_reread_artifacts :
    resume_run "r" (fun _ input _ => .ok input) resumeScenarioPipeline
        "hello" resumeScenarioStore =
      (resumeScenarioStore,
        .error "Step 'upper' references non-existent artifact from step 'echo'") ∧
      resumeScenarioStore.load_artifact "echo" = some "hello" :=
  ⟨rfl, rfl⟩

/-! ## C2 — which violations produce SafetyLimitReached

In the source only the *between-step* `SafetyLimits::check` failures
(`MaxSteps`, `RunTimeout`) reach `handle_safety_violation`. A
`MaxOutputBytes` violation propagates out of `execute_step_with_retry`
with `?` (src/core/orchestrator.rs line 237) and lands in
`handle_run_failure`, producing a `RunFailed` event and the `Failed`
state — refuting "never in the Failed state". -/

/-- C2 (counterexample): a run whose only step's output exceeds
`max_output_bytes = 1` terminates in `Failed`, not `SafetyLimitReached`. -/
theorem c2_counterexample :
    ∃ run,
      (run_pipeline "r" (fun _ _ _ => .ok "toolong")
          { name := "p", description := "",
            safety_limits :=
              { max_steps := 50, max_input_bytes := 1000,
                max_output_bytes := 1, step_timeout_seconds := 300,
                run_timeout_seconds := 3600, denylist_patterns := [] },
            steps := [{ name := "s", adapter := .Fabric, action := "act",
                        input_from := .PipelineInput,
                        retry_policy := ⟨3, 0, 0, 2⟩,
                        timeout_seconds := none }] } "in").2 = .ok run ∧
        run.state = .Failed "Maximum output bytes exceeded: 7 > 1" ∧
        ∀ limit, run.state ≠ RunState.SafetyLimitReached limit := by
  refine ⟨{ id := "r", pipeline_name := "p", input := "in",
            state := .Failed "Maximum output bytes exceeded: 7 > 1",
            started_at := 0, completed_at := some 0, current_step := 0,
            artifacts := [], step_statuses := [("s", .Running)] },
    rfl, rfl, fun limit hl => RunState.noConfusion hl⟩

/-- One step of the `run_pipeline` loop when the between-step safety check
fails: the run is terminated through `handle_safety_violation`. -/
theorem runStepsLoop_cons_safety (exec : Executor) (P : Pipeline)
    (input : String) (i : Nat) (s : Step) (rest : List (Nat × Step))
    (store : EventStoreState) (run : Run) (tracker : SafetyTracker)
    (artifacts : List (String × Artifact)) (v : SafetyViolation)
    (h : P.safety_limits.check tracker = .error v) :
    runStepsLoop exec P input ((i, s) :: rest) store run tracker artifacts =
      ((handle_safety_violation store { run with current_step := i } v).1,
        .ok (handle_safety_violation store { run with current_step := i } v).2) := by
  simp only [runStepsLoop, h]

/-- One step of the `run_pipeline` loop when the safety check, input
resolution and input validation all pass: control reaches
`execute_step_with_retry` and branches on its outcome. -/
theorem runStepsLoop_cons_exec (exec : Executor) (P : Pipeline)
    (input : String) (i : Nat) (s : Step) (rest : List (Nat × Step))
    (store : EventStoreState) (run : Run) (tracker : SafetyTracker)
    (artifacts : List (String × Artifact)) (si : String)
    (hchk : P.safety_limits.check tracker = .ok ())
    (hres : resolve_input input artifacts s = .ok si)
    (hval : P.safety_limits.validate_input si none = .ok ()) :
    runStepsLoop exec P input ((i, s) :: rest) store run tracker artifacts =
      (match execute_step_with_retry exec store
          { run with current_step := i } s si P.safety_limits tracker with
       | (store', run', tracker', .ok artifact) =>
         runStepsLoop exec P input rest store'
           { run' with artifacts := (s.name, artifact) :: run'.artifacts }
           (tracker'.record_step (strLen si) 0)
           ((s.name, artifact) :: artifacts)
       | (store', run', _tracker', .error e) =>
         ((handle_run_failure store' run' e).1,
           .ok (handle_run_failure store' run' e).2)) := by
  simp only [runStepsLoop, hchk, hres, hval]

/-- One step of the `run_pipeline` loop when the safety check and input
resolution pass but input validation fails: the loop returns the
violation's message as a plain error and appends nothing. -/
theorem runStepsLoop_cons_valfail (exec : Executor) (P : Pipeline)
    (input : String) (i : Nat) (s : Step) (rest : List (Nat × Step))
    (store : EventStoreState) (run : Run) (tracker : SafetyTracker)
    (artifacts : List (String × Artifact)) (si : String)
    (v : SafetyViolation)
    (hchk : P.safety_limits.check tracker = .ok ())
    (hres : resolve_input input artifacts s = .ok si)
    (hval : P.safety_limits.validate_input si none = .error v) :
    runStepsLoop exec P input ((i, s) :: rest) store run tracker artifacts =
      (store, .error (SafetyViolation.toMessage v)) := by
  simp only [runStepsLoop, hchk, hres, hval]

/-- One unfolding of the retry loop when the executor succeeds: whatever
the fuel, control reaches the success path. -/
theorem stepAttemptLoop_exec_ok (exec : Executor) (limits : SafetyLimits)
    (step : Step) (input idem_key : String) (timeout fuel : Nat)
    (store : EventStoreState) (run : Run) (tracker : SafetyTracker)
    (attempt0 : Nat) (out : String)
    (hexec : exec step.action input timeout = .ok out) :
    stepAttemptLoop exec limits step input idem_key timeout fuel store run
        tracker attempt0 =
      stepSuccess limits step idem_key
        (store.append (stepStartedEvent run step idem_key (attempt0 + 1)))
        { run with
          step_statuses := (step.name, StepStatus.Running) :: run.step_statuses }
        tracker out := by
  cases fuel <;> simp only [stepAttemptLoop, hexec]

/-- C2 (amended): (i) the between-step `SafetyLimits::check` can only
ever report `MaxSteps` or `RunTimeout`; (ii) whenever it does, at any
point of the step loop, the run terminates in `SafetyLimitReached` with
exactly one `SafetyLimitReached` event appended, never in `Failed`, and
the outcome is the same for every executor — the violation is never
executed, hence never retried; (iii) end to end, a `max_steps = 0`
pipeline completes as `SafetyLimitReached` with log
`[RunStarted, SafetyLimitReached]`; (iv) a `MaxOutputBytes` violation
ends the run `Failed` with a `RunFailed` event after a single
`StepStarted` (no retry); (v) `validate_input` can only ever report
`MaxInputBytes` or `DenylistMatch`; (vi) when it fails at any point of
the step loop, the loop returns the violation's message as a plain error
with the store unchanged — no terminal event; (vii) end to end, an
over-long pipeline input aborts `run_pipeline` as a plain error with
only `RunStarted` logged; (viii) an executor failure with retries
remaining appends a `StepRetrying` event carrying the error and proceeds
to the next attempt — an ordinary retryable failure, which is all a step
deadline expiry is (`StepTimeout` is never constructed). -/
theorem c2_safety_vs_failed :
    (∀ (l : SafetyLimits) (t : SafetyTracker) (v : SafetyViolation),
      l.check t = .error v →
        v = .MaxSteps t.steps_executed l.max_steps ∨
        v = .RunTimeout t.elapsedSeconds l.run_timeout_seconds) ∧
    (∀ (exec exec' : Executor) (P : Pipeline) (input : String) (i : Nat)
        (s : Step) (rest : List (Nat × Step)) (store : EventStoreState)
        (run : Run) (tracker : SafetyTracker)
        (artifacts : List (String × Artifact)) (v : SafetyViolation),
      P.safety_limits.check tracker = .error v →
      ∃ run' e,
        runStepsLoop exec P input ((i, s) :: rest) store run tracker
            artifacts = (store.append e, .ok run') ∧
        e.event_type = .SafetyLimitReached ∧
        run'.state = .SafetyLimitReached (SafetyViolation.toMessage v) ∧
        (∀ msg, run'.state ≠ .Failed msg) ∧
        runStepsLoop exec' P input ((i, s) :: rest) store run tracker
            artifacts =
          runStepsLoop exec P input ((i, s) :: rest) store run tracker
            artifacts) ∧
    (∀ (rid : String) (exec : Executor) (P : Pipeline) (input : String)
        (s : Step) (rest : List Step),
      P.steps = s :: rest → P.safety_limits.max_steps = 0 →
      ∃ run, (run_pipeline rid exec P input).2 = .ok run ∧
        run.state = .SafetyLimitReached
          ((SafetyViolation.MaxSteps 0 0).toMessage) ∧
        (run_pipeline rid exec P input).1.log.map Event.event_type =
          [.RunStarted, .SafetyLimitReached]) ∧
    (∀ (rid : String) (exec : Executor) (P : Pipeline) (input : String)
        (s : Step) (out : String),
      P.steps = [s] → s.input_from = .PipelineInput →
      0 < P.safety_limits.max_steps →
      0 < P.safety_limits.run_timeout_seconds →
      strLen input ≤ P.safety_limits.max_input_bytes →
      exec s.action input (s.timeout P.safety_limits) = .ok out →
      P.safety_limits.max_output_bytes < strLen out →
      ∃ run, (run_pipeline rid exec P input).2 = .ok run ∧
        run.state = .Failed ((SafetyViolation.MaxOutputBytes (strLen out)
          P.safety_limits.max_output_bytes).toMessage) ∧
        (run_pipeline rid exec P input).1.log.map Event.event_type =
          [.RunStarted, .StepStarted, .RunFailed]) ∧
    (∀ (l : SafetyLimits) (inp : String) (sp : Option String)
        (v : SafetyViolation),
      l.validate_input inp sp = .error v →
        v = .MaxInputBytes (strLen inp) l.max_input_bytes ∨
        ∃ p, v = .DenylistMatch p) ∧
    (∀ (exec : Executor) (P : Pipeline) (input : String) (i : Nat)
        (s : Step) (rest : List (Nat × Step)) (store : EventStoreState)
        (run : Run) (tracker : SafetyTracker)
        (artifacts : List (String × Artifact)) (si : String)
        (v : SafetyViolation),
      P.safety_limits.check tracker = .ok () →
      resolve_input input artifacts s = .ok si →
      P.safety_limits.validate_input si none = .error v →
      runStepsLoop exec P input ((i, s) :: rest) store run tracker
          artifacts = (store, .error (SafetyViolation.toMessage v))) ∧
    (∀ (rid : String) (exec : Executor) (P : Pipeline) (input : String)
        (s : Step) (rest : List Step),
      P.steps = s :: rest → s.input_from = .PipelineInput →
      0 < P.safety_limits.max_steps →
      0 < P.safety_limits.run_timeout_seconds →
      P.safety_limits.max_input_bytes < strLen input →
      (run_pipeline rid exec P input).2 =
        .error ((SafetyViolation.MaxInputBytes (strLen input)
          P.safety_limits.max_input_bytes).toMessage) ∧
      (run_pipeline rid exec P input).1.log.map Event.event_type =
        [.RunStarted]) ∧
    (∀ (exec : Executor) (limits : SafetyLimits) (step : Step)
        (input idem_key : String) (timeout fuel : Nat)
        (store : EventStoreState) (run : Run) (tracker : SafetyTracker)
        (attempt0 : Nat) (e : String),
      exec step.action input timeout = .error e →
      step.retry_policy.should_retry (attempt0 + 1) = true →
      ∃ retry_event,
        stepAttemptLoop exec limits step input idem_key timeout (fuel + 1)
            store run tracker attempt0 =
          stepAttemptLoop exec limits step input idem_key timeout fuel
            ((store.append (stepStartedEvent run step idem_key
              (attempt0 + 1))).append retry_event)
            { run with
              step_statuses :=
                (step.name, StepStatus.Running) :: run.step_statuses }
            tracker (attempt0 + 1) ∧
        retry_event.event_type = .StepRetrying ∧
        retry_event.error = some e) := by
  refine ⟨?_, ?_, ?_, ?_, ?_, ?_, ?_, ?_⟩
  · intro l t v h
    simp only [SafetyLimits.check, SafetyTracker.elapsedSeconds] at h
    by_cases h1 : t.steps_executed ≥ l.max_steps
    · rw [if_pos h1] at h
      injection h with h2
      exact Or.inl h2.symm
    · rw [if_neg h1] at h
      by_cases h2 : (0 : Nat) ≥ l.run_timeout_seconds
      · rw [if_pos h2] at h
        injection h with h3
        exact Or.inr h3.symm
      · rw [if_neg h2] at h
        exact Except.noConfusion h
  · intro exec exec' P input i s rest store run tracker artifacts v h
    rw [runStepsLoop_cons_safety exec P input i s rest store run tracker
        artifacts v h,
      runStepsLoop_cons_safety exec' P input i s rest store run tracker
        artifacts v h]
    exact ⟨_, _, rfl, rfl, rfl, fun msg hmsg => RunState.noConfusion hmsg,
      rfl⟩
  · intro rid exec P input s rest hsteps hmax
    have hchk : P.safety_limits.check SafetyTracker.new =
        .error (.MaxSteps 0 0) := by
      simp [SafetyLimits.check, SafetyTracker.new, hmax]
    have key : run_pipeline rid exec P input =
        runStepsLoop exec P input ((0, s) :: rest.enumFrom 1)
          (EventStoreState.empty.append
            (Event.new rid none .RunStarted s!"{rid}:start"
              s!"Pipeline '{P.name}' started" .Running))
          (Run.new rid P.name input) SafetyTracker.new [] := by
      unfold run_pipeline
      rw [hsteps]
      rfl
    rw [key, runStepsLoop_cons_safety _ _ _ _ _ _ _ _ _ _ _ hchk]
    refine ⟨_, rfl, ?_, ?_⟩
    · simp [handle_safety_violation]
    · simp [handle_safety_violation, EventStoreState.append,
        EventStoreState.empty, Event.new, Event.with_error]
  · intro rid exec P input s out hsteps hinput hms hrt hin hexec hout
    have hchk : P.safety_limits.check SafetyTracker.new = .ok () := by
      simp only [SafetyLimits.check, SafetyTracker.new,
        SafetyTracker.elapsedSeconds]
      rw [if_neg (by omega), if_neg (by omega)]
    have hres : resolve_input input [] s = .ok input := by
      simp [resolve_input, hinput]
    have hval : P.safety_limits.validate_input input none = .ok () := by
      simp only [SafetyLimits.validate_input]
      rw [if_neg (by omega)]
    have key : run_pipeline rid exec P input =
        runStepsLoop exec P input [(0, s)]
          (EventStoreState.empty.append
            (Event.new rid none .RunStarted s!"{rid}:start"
              s!"Pipeline '{P.name}' started" .Running))
          (Run.new rid P.name input) SafetyTracker.new [] := by
      unfold run_pipeline
      rw [hsteps]
      rfl
    have hbeq : (EventType.RunStarted == EventType.StepCompleted) = false := rfl
    have hidem : ∀ k, (EventStoreState.empty.append
        (Event.new rid none .RunStarted s!"{rid}:start"
          s!"Pipeline '{P.name}' started" .Running)).is_step_completed k
          = false := by
      intro k
      simp [EventStoreState.is_step_completed, EventStoreState.replay,
        EventStoreState.append, EventStoreState.empty, Event.new, hbeq]
    have hvout : P.safety_limits.validate_output out =
        .error (.MaxOutputBytes (strLen out)
          P.safety_limits.max_output_bytes) := by
      simp only [SafetyLimits.validate_output]
      rw [if_pos (by omega)]
    rw [key, runStepsLoop_cons_exec _ _ _ _ _ _ _ _ _ _ _ hchk hres hval]
    simp only [execute_step_with_retry]
    rw [hidem]
    simp only [Bool.false_eq_true, if_false]
    rw [stepAttemptLoop_exec_ok _ _ _ _ _ _ _ _ _ _ _ _ hexec]
    simp only [stepSuccess, hvout]
    refine ⟨_, rfl, ?_, ?_⟩
    · simp [handle_run_failure]
    · simp [handle_run_failure, EventStoreState.append, stepStartedEvent,
        EventStoreState.empty, Event.new, Event.with_error, Event.with_duration]
  · intro l inp sp v h
    simp only [SafetyLimits.validate_input] at h
    by_cases h1 : strLen inp > l.max_input_bytes
    · rw [if_pos h1] at h
      injection h with h2
      exact Or.inl h2.symm
    · rw [if_neg h1] at h
      cases sp with
      | none => exact Except.noConfusion h
      | some p =>
        have h' : (if l.is_denylisted p = true then
            Except.error (SafetyViolation.DenylistMatch p)
          else Except.ok ()) = Except.error v := h
        by_cases h2 : l.is_denylisted p = true
        · rw [if_pos h2] at h'
          injection h' with h3
          exact Or.inr ⟨p, h3.symm⟩
        · rw [if_neg h2] at h'
          exact Except.noConfusion h'
  · intro exec P input i s rest store run tracker artifacts si v hchk hres
      hval
    exact runStepsLoop_cons_valfail exec P input i s rest store run tracker
      artifacts si v hchk hres hval
  · intro rid exec P input s rest hsteps hinput hms hrt hin
    have hchk : P.safety_limits.check SafetyTracker.new = .ok () := by
      simp only [SafetyLimits.check, SafetyTracker.new,
        SafetyTracker.elapsedSeconds]
      rw [if_neg (by omega), if_neg (by omega)]
    have hres : resolve_input input [] s = .ok input := by
      simp [resolve_input, hinput]
    have hval : P.safety_limits.validate_input input none =
        .error (.MaxInputBytes (strLen input)
          P.safety_limits.max_input_bytes) := by
      simp only [SafetyLimits.validate_input]
      rw [if_pos (by omega)]
    have key : run_pipeline rid exec P input =
        runStepsLoop exec P input ((0, s) :: rest.enumFrom 1)
          (EventStoreState.empty.append
            (Event.new rid none .RunStarted s!"{rid}:start"
              s!"Pipeline '{P.name}' started" .Running))
          (Run.new rid P.name input) SafetyTracker.new [] := by
      unfold run_pipeline
      rw [hsteps]
      rfl
    rw [key, runStepsLoop_cons_valfail _ _ _ _ _ _ _ _ _ _ _ _ hchk hres
      hval]
    exact ⟨rfl, rfl⟩
  · intro exec limits step input idem_key timeout fuel store run tracker
      attempt0 e hexec hretry
    refine ⟨(Event.new run.id (some step.name) .StepRetrying
        s!"{idem_key}:retry:{attempt0 + 1}"
        s!"Step '{step.name}' failed, retrying: {e}" .Running).with_error e,
      ?_, rfl, rfl⟩
    simp only [stepAttemptLoop, hexec]
    rw [if_pos hretry]

/-- C2 witness: every clause of the amended claim at concrete inputs —
the between-step check tripping `MaxSteps` (at `max_steps = 0`) and
`RunTimeout` (at `run_timeout_seconds = 0`) with the loop terminating in
`SafetyLimitReached` for both, the `max_steps = 0` pipeline end to end,
the 7-byte output exceeding `max_output_bytes = 1` end to end, input
validation tripping `MaxInputBytes` (classified, at loop level, and end
to end), and a "deadline exceeded" executor failure being retried. -/
theorem c2_safety_vs_failed_witness :
    (SafetyViolation.MaxSteps 0 0 =
        .MaxSteps SafetyTracker.new.steps_executed c2LimitsSteps.max_steps ∨
      SafetyViolation.MaxSteps 0 0 =
        .RunTimeout SafetyTracker.new.elapsedSeconds
          c2LimitsSteps.run_timeout_seconds) ∧
    (∃ run' e,
      runStepsLoop (fun _ _ _ => .error "x") (c2Pipeline c2LimitsSteps) "in"
          [(0, c2Step)] EventStoreState.empty (Run.new "r" "p" "in")
          SafetyTracker.new [] =
        (EventStoreState.empty.append e, .ok run') ∧
      e.event_type = .SafetyLimitReached ∧
      run'.state = .SafetyLimitReached
        (SafetyViolation.toMessage (.MaxSteps 0 0)) ∧
      (∀ msg, run'.state ≠ .Failed msg) ∧
      runStepsLoop (fun _ _ _ => .ok "y") (c2Pipeline c2LimitsSteps) "in"
          [(0, c2Step)] EventStoreState.empty (Run.new "r" "p" "in")
          SafetyTracker.new [] =
        runStepsLoop (fun _ _ _ => .error "x") (c2Pipeline c2LimitsSteps)
          "in" [(0, c2Step)] EventStoreState.empty (Run.new "r" "p" "in")
          SafetyTracker.new []) ∧
    (∃ run' e,
      runStepsLoop (fun _ _ _ => .error "x") (c2Pipeline c2LimitsTime) "in"
          [(0, c2Step)] EventStoreState.empty (Run.new "r" "p" "in")
          SafetyTracker.new [] =
        (EventStoreState.empty.append e, .ok run') ∧
      e.event_type = .SafetyLimitReached ∧
      run'.state = .SafetyLimitReached
        (SafetyViolation.toMessage (.RunTimeout 0 0)) ∧
      (∀ msg, run'.state ≠ .Failed msg) ∧
      runStepsLoop (fun _ _ _ => .ok "y") (c2Pipeline c2LimitsTime) "in"
          [(0, c2Step)] EventStoreState.empty (Run.new "r" "p" "in")
          SafetyTracker.new [] =
        runStepsLoop (fun _ _ _ => .error "x") (c2Pipeline c2LimitsTime)
          "in" [(0, c2Step)] EventStoreState.empty (Run.new "r" "p" "in")
          SafetyTracker.new []) ∧
    (∃ run,
      (run_pipeline "r" (fun _ _ _ => .error "x")
          (c2Pipeline c2LimitsSteps) "in").2 = .ok run ∧
      run.state = .SafetyLimitReached
        ((SafetyViolation.MaxSteps 0 0).toMessage) ∧
      (run_pipeline "r" (fun _ _ _ => .error "x")
          (c2Pipeline c2LimitsSteps) "in").1.log.map Event.event_type =
        [.RunStarted, .SafetyLimitReached]) ∧
    (∃ run,
      (run_pipeline "r" (fun _ _ _ => .ok "toolong")
          (c2Pipeline c2LimitsOutput) "in").2 = .ok run ∧
      run.state = .Failed ((SafetyViolation.MaxOutputBytes
        (strLen "toolong") 1).toMessage) ∧
      (run_pipeline "r" (fun _ _ _ => .ok "toolong")
          (c2Pipeline c2LimitsOutput) "in").1.log.map Event.event_type =
        [.RunStarted, .StepStarted, .RunFailed]) ∧
    (SafetyViolation.MaxInputBytes 2 1 =
        .MaxInputBytes (strLen "in") c2LimitsInput.max_input_bytes ∨
      ∃ p, SafetyViolation.MaxInputBytes 2 1 = .DenylistMatch p) ∧
    (runStepsLoop (fun _ _ _ => .ok "y") (c2Pipeline c2LimitsInput) "in"
        [(0, c2Step)] EventStoreState.empty (Run.new "r" "p" "in")
        SafetyTracker.new [] =
      (EventStoreState.empty,
        .error (SafetyViolation.toMessage (.MaxInputBytes 2 1)))) ∧
    ((run_pipeline "r" (fun _ _ _ => .ok "y") (c2Pipeline c2LimitsInput)
          "in").2 =
        .error ((SafetyViolation.MaxInputBytes (strLen "in") 1).toMessage) ∧
      (run_pipeline "r" (fun _ _ _ => .ok "y") (c2Pipeline c2LimitsInput)
          "in").1.log.map Event.event_type = [.RunStarted]) ∧
    (∃ retry_event,
      stepAttemptLoop (fun _ _ _ => .error "deadline exceeded")
          defaultSafetyLimits c2Step "in" "k" 1 2 EventStoreState.empty
          (Run.new "r" "p" "in") SafetyTracker.new 0 =
        stepAttemptLoop (fun _ _ _ => .error "deadline exceeded")
          defaultSafetyLimits c2Step "in" "k" 1 1
          ((EventStoreState.empty.append
            (stepStartedEvent (Run.new "r" "p" "in") c2Step "k" 1)).append
            retry_event)
          { Run.new "r" "p" "in" with
            step_statuses :=
              (c2Step.name, StepStatus.Running) ::
                (Run.new "r" "p" "in").step_statuses }
          SafetyTracker.new 1 ∧
      retry_event.event_type = .StepRetrying ∧
      retry_event.error = some "deadline exceeded") :=
  ⟨c2_safety_vs_failed.1 c2LimitsSteps SafetyTracker.new (.MaxSteps 0 0)
      rfl,
    c2_safety_vs_failed.2.1 (fun _ _ _ => .error "x") (fun _ _ _ => .ok "y")
      (c2Pipeline c2LimitsSteps) "in" 0 c2Step [] EventStoreState.empty
      (Run.new "r" "p" "in") SafetyTracker.new [] (.MaxSteps 0 0) rfl,
    c2_safety_vs_failed.2.1 (fun _ _ _ => .error "x") (fun _ _ _ => .ok "y")
      (c2Pipeline c2LimitsTime) "in" 0 c2Step [] EventStoreState.empty
      (Run.new "r" "p" "in") SafetyTracker.new [] (.RunTimeout 0 0) rfl,
    c2_safety_vs_failed.2.2.1 "r" (fun _ _ _ => .error "x")
      (c2Pipeline c2LimitsSteps) "in" c2Step [] rfl rfl,
    c2_safety_vs_failed.2.2.2.1 "r" (fun _ _ _ => .ok "toolong")
      (c2Pipeline c2LimitsOutput) "in" c2Step "toolong"
      rfl rfl (by decide) (by decide) (by decide) rfl (by decide),
    c2_safety_vs_failed.2.2.2.2.1 c2LimitsInput "in" none
      (.MaxInputBytes 2 1) rfl,
    c2_safety_vs_failed.2.2.2.2.2.1 (fun _ _ _ => .ok "y")
      (c2Pipeline c2LimitsInput) "in" 0 c2Step [] EventStoreState.empty
      (Run.new "r" "p" "in") SafetyTracker.new [] "in" (.MaxInputBytes 2 1)
      rfl rfl rfl,
    c2_safety_vs_failed.2.2.2.2.2.2.1 "r" (fun _ _ _ => .ok "y")
      (c2Pipeline c2LimitsInput) "in" c2Step [] rfl rfl (by decide)
      (by decide) (by decide),
    c2_safety_vs_failed.2.2.2.2.2.2.2
      (fun _ _ _ => .error "deadline exceeded") defaultSafetyLimits c2Step
      "in" "k" 1 1 EventStoreState.empty (Run.new "r" "p" "in")
      SafetyTracker.new 0 "deadline exceeded" rfl (by decide)⟩
theorem c7_mark_processing_laws_witness :
    (alistLookup "i" (queueReplay
        [{ timestamp := 3, item_id := "i", event_type := .Enqueued,
           data := some (.itemData ⟨"p", "n", 4, 5⟩) }]) =
        some ⟨"i", .Pending, ⟨"p", "n", 4, 5⟩, none, none, none, 0⟩) ∧
      VoiceQueue.mark_processing
          [{ timestamp := 3, item_id := "i", event_type := .Enqueued,
             data := some (.itemData ⟨"p", "n", 4, 5⟩) }] "i" 7 =
        ([{ timestamp := 3, item_id := "i", event_type := .Enqueued,
            data := some (.itemData ⟨"p", "n", 4, 5⟩) },
          { timestamp := 7, item_id := "i",
            event_type := .ProcessingStarted, data := none }], none) :=
  ⟨by decide,
    (c7_mark_processing_laws _ "i" 7).1
      ⟨"i", .Pending, ⟨"p", "n", 4, 5⟩, none, none, none, 0⟩ (by decide) rfl⟩

/-! ## C3 — find_quote status laws

`find_quote`/`find_exact_matches` (src/evidence/spans.rs lines 77-93,
123-136) against the spec-side occurrence predicate `OccursAt`. -/

theorem slice_eq_iff_occursAt (t q : List Nat) (hq : q ≠ []) (i : Nat) :
    (t.drop i).take q.length = q ↔ OccursAt t q i := by
  constructor
  · intro h
    have hlen := congrArg List.length h
    have hqpos : 0 < q.length := List.length_pos.2 hq
    simp only [List.length_take, List.length_drop] at hlen
    exact ⟨by omega, h⟩
  · exact fun h => h.2

theorem slice_test_eq_occurs_test (t q : List Nat) (hq : q ≠ []) (i : Nat) :
    ((t.drop i).take q.length == q) = decide (OccursAt t q i) := by
  rw [Bool.eq_iff_iff, beq_iff_eq, decide_eq_true_eq]
  exact slice_eq_iff_occursAt t q hq i

theorem mem_find_exact_matches (t q : List Nat) (hq : q ≠ []) (s e : Nat) :
    (s, e) ∈ find_exact_matches t q ↔ OccursAt t q s ∧ e = s + q.length := by
  have hqe : q.isEmpty = false := by
    cases q with
    | nil => exact absurd rfl hq
    | cons a l => rfl
  have hqpos : 0 < q.length := List.length_pos.2 hq
  unfold find_exact_matches
  by_cases hlen : t.length < q.length
  · simp only [hqe, hlen, Bool.false_or, decide_True, if_true,
      List.not_mem_nil, false_iff, not_and]
    rintro ⟨h1, _⟩
    omega
  · simp only [hqe, hlen, Bool.false_or, decide_False, Bool.false_eq_true,
      if_false, List.mem_map, List.mem_filter, List.mem_range]
    constructor
    · rintro ⟨i, ⟨hir, hitest⟩, heq⟩
      rw [beq_iff_eq] at hitest
      have hs : i = s := congrArg Prod.fst heq
      have he : i + q.length = e := congrArg Prod.snd heq
      subst hs
      exact ⟨⟨by omega, hitest⟩, he.symm⟩
    · rintro ⟨⟨hb, hsl⟩, rfl⟩
      exact ⟨s, ⟨by omega, by rw [beq_iff_eq]; exact hsl⟩, rfl⟩

theorem countP_range_shrink (p : Nat → Bool) (m n : Nat) (hmn : m ≤ n)
    (h : ∀ i, p i = true → i < m) :
    (List.range n).countP p = (List.range m).countP p := by
  induction n with
  | zero =>
    have hm : m = 0 := by omega
    rw [hm]
  | succ n ih =>
    rcases Nat.eq_or_lt_of_le hmn with he | hlt
    · rw [he]
    · have hmn2 : m ≤ n := by omega
      have hpn : p n = false := by
        cases hpn : p n with
        | false => rfl
        | true => exact absurd (h n hpn) (by omega)
      rw [List.range_succ, List.countP_append, ih hmn2]
      simp [List.countP_cons, hpn]

theorem length_find_exact_matches (t q : List Nat) (hq : q ≠ []) :
    (find_exact_matches t q).length = occCount t q := by
  have hqe : q.isEmpty = false := by
    cases q with
    | nil => exact absurd rfl hq
    | cons a l => rfl
  have hqpos : 0 < q.length := List.length_pos.2 hq
  unfold find_exact_matches occCount
  by_cases hlen : t.length < q.length
  · simp only [hqe, hlen, Bool.false_or, decide_True, if_true,
      List.length_nil]
    rw [eq_comm, List.length_eq_zero, List.filter_eq_nil_iff]
    intro i _ hi
    rw [decide_eq_true_eq] at hi
    have := hi.1
    omega
  · simp only [hqe, hlen, Bool.false_or, decide_False, Bool.false_eq_true,
      if_false]
    rw [List.length_map, ← List.countP_eq_length_filter,
      ← List.countP_eq_length_filter]
    rw [List.countP_congr fun i _ => by
      rw [slice_test_eq_occurs_test t q hq i]]
    have hbound2 : ∀ i, decide (OccursAt t q i) = true →
        i < t.length - q.length + 1 := by
      intro i hi
      rw [decide_eq_true_eq] at hi
      have := hi.1
      omega
    exact (countP_range_shrink _ _ _ (by omega) hbound2).symm

theorem head_mem_le_of_pairwise {l : List Nat}
    (h : l.Pairwise (· < ·)) (j : Nat) (hj : l.head? = some j) :
    ∀ i ∈ l, j ≤ i := by
  cases l with
  | nil => simp at hj
  | cons a l2 =>
    simp only [List.head?_cons, Option.some.injEq] at hj
    subst hj
    intro i hi
    rcases List.mem_cons.1 hi with rfl | hi2
    · exact le_refl i
    · exact le_of_lt ((List.pairwise_cons.1 h).1 i hi2)

/-- The first recorded match has the lowest byte offset of all
occurrences: the source loop scans offsets in increasing order. -/
theorem find_exact_matches_head_min (t q : List Nat) (hq : q ≠ [])
    (s e : Nat) (hhead : (find_exact_matches t q).head? = some (s, e)) :
    ∀ i, OccursAt t q i → s ≤ i := by
  intro i hi
  have hqpos : 0 < q.length := List.length_pos.2 hq
  by_cases hbig : t.length < q.length
  · exact absurd hi.1 (by omega)
  have hqe : q.isEmpty = false := by
    cases q with
    | nil => exact absurd rfl hq
    | cons a l => rfl
  have hfq : find_exact_matches t q =
      ((List.range (t.length - q.length + 1)).filter fun j =>
        (t.drop j).take q.length == q).map (fun j => (j, j + q.length)) := by
    unfold find_exact_matches
    simp only [hqe, hbig, Bool.false_or, decide_False, Bool.false_eq_true,
      if_false]
  rw [hfq] at hhead
  cases hc : (List.range (t.length - q.length + 1)).filter fun j =>
      (t.drop j).take q.length == q with
  | nil => rw [hc] at hhead; simp at hhead
  | cons a l2 =>
    rw [hc] at hhead
    simp only [List.map_cons, List.head?_cons, Option.some.injEq] at hhead
    have has : a = s := congrArg Prod.fst hhead
    subst has
    have hpw : (((List.range (t.length - q.length + 1)).filter fun j =>
        (t.drop j).take q.length == q)).Pairwise (· < ·) :=
      (List.pairwise_lt_range _).filter _
    have hpw2 : (a :: l2).Pairwise (· < ·) := hc ▸ hpw
    refine head_mem_le_of_pairwise hpw2 a rfl i ?_
    rw [← hc, List.mem_filter, List.mem_range]
    exact ⟨by have := hi.1; omega, by rw [beq_iff_eq]; exact hi.2⟩

theorem matchResult_status_cases (r : MatchResult) :
    (r.status = .Unresolved ↔ r.matches_.length = 0) ∧
    (r.status = .Resolved ↔ r.matches_.length = 1) ∧
    (r.status = .Ambiguous ↔ 2 ≤ r.matches_.length) := by
  unfold MatchResult.status
  rcases hn : r.matches_.length with _ | n
  · simp
  · rcases n with _ | n <;> simp

/-- C3 (counterexample): for the empty quote, `find_quote` reports
`Unresolved` although the empty byte string does occur in the transcript
(at offset 0) — refuting "Unresolved exactly when q's bytes occur nowhere
in text's bytes". -/
theorem c3_counterexample :
    (find_quote [97] []).status = .Unresolved ∧ OccursAt [97] [] 0 :=
  ⟨rfl, by constructor <;> simp⟩

/-- C3 (amended): for every transcript and every *nonempty* quote,
`find_quote` yields `Unresolved` iff the quote occurs nowhere, `Resolved`
iff it occurs exactly once, `Ambiguous` iff it occurs at least twice;
`match_info` records the occurrence count and rank 1; and any selected
span `[s, e)` is the lowest-offset occurrence with
`text.as_bytes()[s..e] = q.as_bytes()`. -/
theorem c3_find_quote_laws (t q : List Nat) (hq : q ≠ []) :
    ((find_quote t q).status = .Unresolved ↔ ∀ i, ¬ OccursAt t q i) ∧
    ((find_quote t q).status = .Resolved ↔ occCount t q = 1) ∧
    ((find_quote t q).status = .Ambiguous ↔ 2 ≤ occCount t q) ∧
    (find_quote t q).match_info = (occCount t q, 1) ∧
    (∀ s e, (find_quote t q).selected_match = some (s, e) →
      OccursAt t q s ∧ e = s + q.length ∧ (t.drop s).take (e - s) = q ∧
        ∀ i, OccursAt t q i → s ≤ i) := by
  have hqpos : 0 < q.length := List.length_pos.2 hq
  have hm : (find_quote t q).matches_ = find_exact_matches t q := rfl
  have hlen : (find_quote t q).matches_.length = occCount t q := by
    rw [hm]; exact length_find_exact_matches t q hq
  obtain ⟨hu, hr, ha⟩ := matchResult_status_cases (find_quote t q)
  have hocc0 : occCount t q = 0 ↔ ∀ i, ¬ OccursAt t q i := by
    unfold occCount
    rw [List.length_eq_zero, List.filter_eq_nil_iff]
    constructor
    · intro h i hi
      have hib : i < t.length + 1 := by
        have := hi.1; omega
      exact absurd (decide_eq_true_eq.mpr hi) (h i (List.mem_range.2 hib))
    · intro h i _ hi
      exact h i (decide_eq_true_eq.mp hi)
  refine ⟨?_, ?_, ?_, ?_, ?_⟩
  · rw [hu, hlen, hocc0]
  · rw [hr, hlen]
  · rw [ha, hlen]
  · show ((find_quote t q).matches_.length, 1) = (occCount t q, 1)
    rw [hlen]
  · intro s e hse
    have hse2 : (find_quote t q).matches_.head? = some (s, e) := hse
    have hmem : (s, e) ∈ (find_quote t q).matches_ :=
      List.mem_of_mem_head? (Option.mem_def.mpr hse2)
    rw [hm] at hmem
    obtain ⟨hocc, hee⟩ := (mem_find_exact_matches t q hq s e).1 hmem
    refine ⟨hocc, hee, ?_, ?_⟩
    · have hd : e - s = q.length := by omega
      rw [hd]
      exact hocc.2
    · exact find_exact_matches_head_min t q hq s e (hm ▸ hse2)

/-- C3 witness: spec scenario 6 — `find_quote("foo bar foo baz foo",
"foo")` is `Ambiguous` with three occurrences and selected span `[0, 3)`. -/
theorem c3_find_quote_laws_witness :
    ([102, 111, 111] : List Nat) ≠ [] ∧
      (((find_quote
          [102, 111, 111, 32, 98, 97, 114, 32, 102, 111, 111, 32, 98, 97,
            122, 32, 102, 111, 111] [102, 111, 111]).status = .Ambiguous ↔
        2 ≤ occCount
          [102, 111, 111, 32, 98, 97, 114, 32, 102, 111, 111, 32, 98, 97,
            122, 32, 102, 111, 111] [102, 111, 111]) ∧
      (find_quote
          [102, 111, 111, 32, 98, 97, 114, 32, 102, 111, 111, 32, 98, 97,
            122, 32, 102, 111, 111] [102, 111, 111]).match_info =
        (occCount
          [102, 111, 111, 32, 98, 97, 114, 32, 102, 111, 111, 32, 98, 97,
            122, 32, 102, 111, 111] [102, 111, 111], 1)) ∧
      (find_quote
          [102, 111, 111, 32, 98, 97, 114, 32, 102, 111, 111, 32, 98, 97,
            122, 32, 102, 111, 111] [102, 111, 111]).status = .Ambiguous ∧
      occCount
          [102, 111, 111, 32, 98, 97, 114, 32, 102, 111, 111, 32, 98, 97,
            122, 32, 102, 111, 111] [102, 111, 111] = 3 ∧
      (find_quote
          [102, 111, 111, 32, 98, 97, 114, 32, 102, 111, 111, 32, 98, 97,
            122, 32, 102, 111, 111] [102, 111, 111]).selected_match =
        some (0, 3) :=
  ⟨by decide,
    ⟨(c3_find_quote_laws _ _ (by decide)).2.2.1,
      (c3_find_quote_laws _ _ (by decide)).2.2.2.1⟩,
    by decide, by decide, by decide⟩

/-! ## C8 — anchor extraction is UTF-8 safe

`extract_anchor_text` (src/evidence/spans.rs lines 178-208): the outward
boundary snapping makes both slice indices char boundaries, so slicing
cannot panic and the anchor is itself valid UTF-8. -/

theorem encodeChar_ne_nil (c : Nat) : encodeChar c ≠ [] := by
  unfold encodeChar
  split_ifs <;> simp

theorem encodeChar_head_not_cont (c : Nat) :
    ∀ b, (encodeChar c).head? = some b → b < 0x80 ∨ 0xC0 ≤ b := by
  unfold encodeChar
  split_ifs with h1 h2 h3 <;> intro b hb <;>
    simp only [List.head?_cons, Option.some.injEq] at hb <;> subst hb
  · exact Or.inl h1
  · exact Or.inr (by omega)
  · exact Or.inr (by omega)
  · exact Or.inr (by omega)

theorem encodeChar_tail_cont (c : Nat) :
    ∀ b ∈ (encodeChar c).tail, 0x80 ≤ b ∧ b < 0xC0 := by
  unfold encodeChar
  split_ifs with h1 h2 h3
  · simp
  · intro b hb
    simp only [List.tail_cons, List.mem_cons, List.not_mem_nil,
      or_false] at hb
    subst hb
    omega
  · intro b hb
    simp only [List.tail_cons, List.mem_cons, List.not_mem_nil,
      or_false] at hb
    rcases hb with rfl | rfl <;> omega
  · intro b hb
    simp only [List.tail_cons, List.mem_cons, List.not_mem_nil,
      or_false] at hb
    rcases hb with rfl | rfl | rfl <;> omega

theorem utf8Encode_cons (c : Nat) (cs : List Nat) :
    utf8Encode (c :: cs) = encodeChar c ++ utf8Encode cs := by
  simp [utf8Encode]

theorem utf8Encode_append (a b : List Nat) :
    utf8Encode (a ++ b) = utf8Encode a ++ utf8Encode b := by
  simp [utf8Encode]

theorem utf8Encode_head_not_cont (cs : List Nat) :
    ∀ b, (utf8Encode cs).head? = some b → b < 0x80 ∨ 0xC0 ≤ b := by
  cases cs with
  | nil => intro b hb; simp [utf8Encode] at hb
  | cons c cs2 =>
    intro b hb
    rw [utf8Encode_cons] at hb
    obtain ⟨hd, tl, heq⟩ := List.exists_cons_of_ne_nil (encodeChar_ne_nil c)
    rw [heq, List.cons_append, List.head?_cons, Option.some.injEq] at hb
    refine encodeChar_head_not_cont c b ?_
    rw [heq, List.head?_cons, hb]

theorem isCharBoundary_zero (t : List Nat) : isCharBoundary t 0 = true := by
  simp [isCharBoundary]

theorem isCharBoundary_length (t : List Nat) :
    isCharBoundary t t.length = true := by
  unfold isCharBoundary
  by_cases h : t.length = 0
  · rw [if_pos h]
  · rw [if_neg h, List.get?_len_le (le_refl _)]
    simp

/-- Shifting a boundary query past a whole encoded chunk, provided what
follows starts with a non-continuation byte (or is empty). -/
theorem isCharBoundary_append (e r : List Nat) (he : e ≠ [])
    (hhead : ∀ b, r.head? = some b → b < 0x80 ∨ 0xC0 ≤ b) (j : Nat) :
    isCharBoundary (e ++ r) (e.length + j) = isCharBoundary r j := by
  have hepos : 0 < e.length := List.length_pos.2 he
  unfold isCharBoundary
  by_cases hj : j = 0
  · subst hj
    rw [if_neg (by omega), if_pos rfl]
    cases hr : r with
    | nil =>
      rw [List.get?_len_le (by simp)]
      simp
    | cons b rbs =>
      rw [List.get?_append_right (by omega),
        show e.length + 0 - e.length = 0 from by omega]
      rcases hhead b (by rw [hr]; rfl) with h | h <;> simp [h]
  · rw [if_neg (by omega), if_neg hj]
    rw [List.get?_append_right (by omega),
      show e.length + j - e.length = j from by omega]
    cases hrj : r.get? j with
    | none =>
      simp only [List.length_append]
      rw [Bool.eq_iff_iff, beq_iff_eq, beq_iff_eq]
      omega
    | some b => rfl

/-- Positions strictly inside an encoded character are not boundaries. -/
theorem isCharBoundary_inside_encodeChar (c : Nat) (r : List Nat) (i : Nat)
    (h0 : 0 < i) (hL : i < (encodeChar c).length) :
    isCharBoundary (encodeChar c ++ r) i = false := by
  cases hb : (encodeChar c).get? i with
  | none => exact absurd (List.get?_eq_none.1 hb) (by omega)
  | some b =>
    have hbtail : b ∈ (encodeChar c).tail := by
      obtain ⟨hd, tl, heq⟩ := List.exists_cons_of_ne_nil (encodeChar_ne_nil c)
      rw [heq] at hb ⊢
      cases i with
      | zero => omega
      | succ i2 =>
        simp only [List.get?_cons_succ] at hb
        simp only [List.tail_cons]
        exact List.get?_mem hb
    obtain ⟨hc1, hc2⟩ := encodeChar_tail_cont c b hbtail
    unfold isCharBoundary
    rw [if_neg (by omega), List.get?_append hL, hb]
    simp only [Bool.or_eq_false_iff, decide_eq_false_iff_not]
    omega

/-- The char boundaries of an encoded string are exactly the byte lengths
of the encodings of its prefixes. -/
theorem isCharBoundary_utf8Encode (cs : List Nat) (i : Nat) :
    isCharBoundary (utf8Encode cs) i = true ↔
      ∃ k, k ≤ cs.length ∧ i = (utf8Encode (cs.take k)).length := by
  induction cs generalizing i with
  | nil =>
    constructor
    · intro h
      by_cases hi : i = 0
      · exact ⟨0, by omega, by simp [hi, utf8Encode]⟩
      · exfalso
        unfold isCharBoundary at h
        rw [if_neg hi] at h
        simp only [utf8Encode, List.map_nil, List.flatten_nil,
          List.get?_nil, List.length_nil] at h
        rw [beq_iff_eq] at h
        exact hi h
    · rintro ⟨k, hk, hkeq⟩
      have hk0 : k = 0 := by simpa using hk
      subst hk0
      simp only [List.take_zero, utf8Encode, List.map_nil,
        List.flatten_nil, List.length_nil] at hkeq
      rw [hkeq]
      exact isCharBoundary_zero _
  | cons c cs2 ih =>
    rw [utf8Encode_cons]
    have hepos : 0 < (encodeChar c).length :=
      List.length_pos.2 (encodeChar_ne_nil c)
    by_cases hi0 : i = 0
    · subst hi0
      rw [isCharBoundary_zero]
      simp only [true_iff]
      exact ⟨0, by omega, by simp [utf8Encode]⟩
    · by_cases hiL : i < (encodeChar c).length
      · rw [isCharBoundary_inside_encodeChar c _ i (by omega) hiL]
        constructor
        · intro h
          exact absurd h (by simp)
        · rintro ⟨k, hk, hkeq⟩
          exfalso
          cases k with
          | zero =>
            simp only [List.take_zero, utf8Encode, List.map_nil,
              List.flatten_nil, List.length_nil] at hkeq
            omega
          | succ k2 =>
            rw [List.take_succ_cons, utf8Encode_cons,
              List.length_append] at hkeq
            omega
      · obtain ⟨j, rfl⟩ : ∃ j, i = (encodeChar c).length + j :=
          ⟨i - (encodeChar c).length, by omega⟩
        rw [isCharBoundary_append _ _ (encodeChar_ne_nil c)
          (utf8Encode_head_not_cont cs2), ih]
        constructor
        · rintro ⟨k, hk, hkeq⟩
          refine ⟨k + 1, by simp; omega, ?_⟩
          rw [List.take_succ_cons, utf8Encode_cons, List.length_append]
          omega
        · rintro ⟨k, hk, hkeq⟩
          cases k with
          | zero =>
            simp only [List.take_zero, utf8Encode, List.map_nil,
              List.flatten_nil, List.length_nil] at hkeq
            omega
          | succ k2 =>
            refine ⟨k2, by simp at hk; omega, ?_⟩
            rw [List.take_succ_cons, utf8Encode_cons,
              List.length_append] at hkeq
            omega

/-- Encoded prefix lengths are strictly increasing in the prefix length. -/
theorem utf8Encode_take_lt (cs : List Nat) (k m : Nat) (hk : k < m)
    (hm : m ≤ cs.length) :
    (utf8Encode (cs.take k)).length < (utf8Encode (cs.take m)).length := by
  have h1 : cs.take m = cs.take k ++ (cs.take m).drop k := by
    conv_lhs => rw [← List.take_append_drop k (cs.take m)]
    rw [List.take_take, Nat.min_eq_left (le_of_lt hk)]
  rw [h1, utf8Encode_append, List.length_append]
  have hne : (cs.take m).drop k ≠ [] := by
    intro h
    have := congrArg List.length h
    simp only [List.length_drop, List.length_take, List.length_nil] at this
    omega
  have henc : utf8Encode ((cs.take m).drop k) ≠ [] := by
    cases hc : (cs.take m).drop k with
    | nil => exact absurd hc hne
    | cons d ds =>
      rw [utf8Encode_cons]
      simp [encodeChar_ne_nil]
  have := List.length_pos.2 henc
  omega

/-- A slice of an encoded string between two prefix boundaries is the
encoding of the scalar values in between. -/
theorem utf8Encode_slice (cs : List Nat) (k m : Nat) (hk : k ≤ m)
    (hm : m ≤ cs.length) :
    ((utf8Encode cs).take (utf8Encode (cs.take m)).length).drop
        (utf8Encode (cs.take k)).length =
      utf8Encode ((cs.take m).drop k) := by
  have h2 : (cs.take m).take k = cs.take k := by
    rw [List.take_take, Nat.min_eq_left hk]
  have h3 : utf8Encode cs = utf8Encode (cs.take m) ++ utf8Encode (cs.drop m) := by
    rw [← utf8Encode_append, List.take_append_drop]
  have hstep1 : (utf8Encode cs).take (utf8Encode (cs.take m)).length =
      utf8Encode (cs.take m) := by
    rw [h3, List.take_left]
  rw [hstep1]
  conv_lhs => rw [← List.take_append_drop k (cs.take m), h2,
    utf8Encode_append]
  rw [List.drop_left]

theorem snapBack_le (t : List Nat) (i : Nat) : snapBack t i ≤ i := by
  induction i with
  | zero => simp [snapBack]
  | succ n ih =>
    unfold snapBack
    by_cases h : isCharBoundary t (n + 1) = true
    · rw [if_pos h]
    · rw [if_neg h]
      exact Nat.le_succ_of_le ih

theorem isCharBoundary_snapBack (t : List Nat) (i : Nat) :
    isCharBoundary t (snapBack t i) = true := by
  induction i with
  | zero => exact isCharBoundary_zero t
  | succ n ih =>
    unfold snapBack
    by_cases h : isCharBoundary t (n + 1) = true
    · rw [if_pos h]
      exact h
    · rw [if_neg h]
      exact ih

theorem snapForwardAux_ge (t : List Nat) :
    ∀ fuel i, i ≤ snapForwardAux t fuel i := by
  intro fuel
  induction fuel with
  | zero => intro i; exact le_refl i
  | succ n ih =>
    intro i
    unfold snapForwardAux
    by_cases hc : (decide (i < t.length) && !isCharBoundary t i) = true
    · rw [if_pos hc]
      exact le_trans (Nat.le_succ i) (ih (i + 1))
    · rw [if_neg hc]

theorem snapForwardAux_le_length (t : List Nat) :
    ∀ fuel i, i ≤ t.length → snapForwardAux t fuel i ≤ t.length := by
  intro fuel
  induction fuel with
  | zero => intro i h; exact h
  | succ n ih =>
    intro i h
    unfold snapForwardAux
    by_cases hc : (decide (i < t.length) && !isCharBoundary t i) = true
    · rw [if_pos hc]
      simp only [Bool.and_eq_true, decide_eq_true_eq] at hc
      exact ih (i + 1) (by omega)
    · rw [if_neg hc]
      exact h

theorem isCharBoundary_snapForwardAux (t : List Nat) :
    ∀ fuel i, i ≤ t.length → t.length - i ≤ fuel →
      isCharBoundary t (snapForwardAux t fuel i) = true := by
  intro fuel
  induction fuel with
  | zero =>
    intro i h1 h2
    have hi : i = t.length := by omega
    subst hi
    exact isCharBoundary_length t
  | succ n ih =>
    intro i h1 h2
    unfold snapForwardAux
    by_cases hc : (decide (i < t.length) && !isCharBoundary t i) = true
    · rw [if_pos hc]
      simp only [Bool.and_eq_true, decide_eq_true_eq] at hc
      exact ih (i + 1) (by omega) (by omega)
    · rw [if_neg hc]
      rcases Nat.lt_or_ge i t.length with hlt | hge
      · cases hb : isCharBoundary t i with
        | true => rfl
        | false => exact absurd (by simp [hlt, hb]) hc
      · have hi : i = t.length := by omega
        subst hi
        exact isCharBoundary_length t

theorem snapForward_ge (t : List Nat) (i : Nat) : i ≤ snapForward t i :=
  snapForwardAux_ge t _ i

theorem snapForward_le_length (t : List Nat) (i : Nat) (h : i ≤ t.length) :
    snapForward t i ≤ t.length :=
  snapForwardAux_le_length t _ i h

theorem isCharBoundary_snapForward (t : List Nat) (i : Nat)
    (h : i ≤ t.length) : isCharBoundary t (snapForward t i) = true :=
  isCharBoundary_snapForwardAux t _ i h (le_refl _)

/-- C8: on a valid UTF-8 transcript, for any span with
`start ≤ end ≤ len` on char boundaries (and any window),
`extract_anchor_text` returns without panicking, and the returned anchor
is itself valid UTF-8: the context expansion snaps outward to char
boundaries before slicing. -/
theorem c8_extract_anchor_text_safe (t : List Nat) (start end_ window : Nat)
    (hvalid : ValidUtf8 t) (hs : isCharBoundary t start = true)
    (he : isCharBoundary t end_ = true) (hse : start ≤ end_)
    (hel : end_ ≤ t.length) :
    ∃ out, extract_anchor_text t start end_ window = some out ∧
      ValidUtf8 out := by
  obtain ⟨cs, hcs, rfl⟩ := hvalid
  have hmin : min (end_ + (window - (end_ - start)) / 2)
      (utf8Encode cs).length ≤ (utf8Encode cs).length :=
    Nat.min_le_right _ _
  have hbS : isCharBoundary (utf8Encode cs)
      (snapBack (utf8Encode cs)
        (start - (window - (end_ - start)) / 2)) = true :=
    isCharBoundary_snapBack _ _
  have hbE : isCharBoundary (utf8Encode cs)
      (snapForward (utf8Encode cs)
        (min (end_ + (window - (end_ - start)) / 2)
          (utf8Encode cs).length)) = true :=
    isCharBoundary_snapForward _ _ hmin
  have hle1 : snapBack (utf8Encode cs)
      (start - (window - (end_ - start)) / 2) ≤
      snapForward (utf8Encode cs)
        (min (end_ + (window - (end_ - start)) / 2)
          (utf8Encode cs).length) := by
    have h1 := snapBack_le (utf8Encode cs)
      (start - (window - (end_ - start)) / 2)
    have h2 := snapForward_ge (utf8Encode cs)
      (min (end_ + (window - (end_ - start)) / 2) (utf8Encode cs).length)
    have h3 : end_ ≤ min (end_ + (window - (end_ - start)) / 2)
        (utf8Encode cs).length := le_min (Nat.le_add_right _ _) hel
    omega
  have hle2 : snapForward (utf8Encode cs)
      (min (end_ + (window - (end_ - start)) / 2)
        (utf8Encode cs).length) ≤ (utf8Encode cs).length :=
    snapForward_le_length _ _ hmin
  obtain ⟨k, hk, hkeq⟩ := (isCharBoundary_utf8Encode cs _).1 hbS
  obtain ⟨m, hm, hmeq⟩ := (isCharBoundary_utf8Encode cs _).1 hbE
  have hkm : k ≤ m := by
    by_contra hkm
    have := utf8Encode_take_lt cs m k (by omega) (by omega)
    omega
  have hslice : ((utf8Encode cs).take
      (snapForward (utf8Encode cs)
        (min (end_ + (window - (end_ - start)) / 2)
          (utf8Encode cs).length))).drop
      (snapBack (utf8Encode cs)
        (start - (window - (end_ - start)) / 2)) =
      utf8Encode ((cs.take m).drop k) := by
    rw [hkeq, hmeq]
    exact utf8Encode_slice cs k m hkm hm
  refine ⟨(if 0 < snapBack (utf8Encode cs)
        (start - (window - (end_ - start)) / 2) then [46, 46, 46]
        else []) ++
      (((utf8Encode cs).take
          (snapForward (utf8Encode cs)
            (min (end_ + (window - (end_ - start)) / 2)
              (utf8Encode cs).length))).drop
        (snapBack (utf8Encode cs)
          (start - (window - (end_ - start)) / 2))) ++
      (if snapForward (utf8Encode cs)
          (min (end_ + (window - (end_ - start)) / 2)
            (utf8Encode cs).length) < (utf8Encode cs).length
        then [46, 46, 46] else []), ?_, ?_⟩
  · simp only [extract_anchor_text]
    rw [if_neg (by omega),
      if_pos (by simp [hbS, hbE, hle1, hle2])]
  · refine ⟨(if 0 < snapBack (utf8Encode cs)
        (start - (window - (end_ - start)) / 2) then [46, 46, 46]
        else []) ++ ((cs.take m).drop k) ++
      (if snapForward (utf8Encode cs)
          (min (end_ + (window - (end_ - start)) / 2)
            (utf8Encode cs).length) < (utf8Encode cs).length
        then [46, 46, 46] else []), ?_, ?_⟩
    · intro c hc
      simp only [List.mem_append] at hc
      rcases hc with (hc | hc) | hc
      · split at hc <;> simp only [List.mem_cons, List.not_mem_nil,
          or_false] at hc
        rcases hc with rfl | rfl | rfl <;> norm_num
      · exact hcs c (List.mem_of_mem_take (List.mem_of_mem_drop hc))
      · split at hc <;> simp only [List.mem_cons, List.not_mem_nil,
          or_false] at hc
        rcases hc with rfl | rfl | rfl <;> norm_num
    · rw [utf8Encode_append, utf8Encode_append, ← hslice]
      congr 1
      · congr 1
        · split <;> rfl
      · split <;> rfl

/-- Witness for C8 at the concrete multibyte transcript
`[104, 195, 169, 108]` (the UTF-8 bytes of a string with a 2-byte
character in the middle), span `[1, 3)`, window 10. -/
theorem c8_extract_anchor_text_safe_witness :
    ValidUtf8 [104, 195, 169, 108] ∧
    isCharBoundary [104, 195, 169, 108] 1 = true ∧
    isCharBoundary [104, 195, 169, 108] 3 = true ∧
    (1 : Nat) ≤ 3 ∧ (3 : Nat) ≤ ([104, 195, 169, 108] : List Nat).length ∧
    (∃ out, extract_anchor_text [104, 195, 169, 108] 1 3 10 = some out ∧
      ValidUtf8 out) :=
  ⟨⟨[104, 233, 108], by decide, by decide⟩, by decide, by decide,
    by decide, by decide,
    c8_extract_anchor_text_safe [104, 195, 169, 108] 1 3 10
      ⟨[104, 233, 108], by decide, by decide⟩ (by decide) (by decide)
      (by decide) (by decide)⟩

end Arkai
